import Mathlib

/-!
# Verification of the pizza-delivery multiplayer game

Shallow embedding of the repository `paiput/hackaton-paisanos` (the networked
pizza-delivery game).  JavaScript `number`s are modelled as `ℚ`; the library
functions `Math.sqrt`, `Math.cos`, `Math.sin`, `Math.atan2` and the constant
`Math.PI` are abstracted into a `JsMath` structure (every theorem that touches
them either holds for all models or is evaluated at inputs where the model's
equations pin the value down exactly).  `Math.random()` draws are modelled as
an explicit stream `rs : ℕ → ℚ` with a running index.

Sources embedded here:
  * `src/utils/generators.ts`     (city / delivery-point / vehicle generation)
  * `src/network/PizzaGameServer.ts` (authoritative networked server)
  * `src/server/server.ts`        (simple prototype server, `move` handler)
  * `src/pizza-delivery-game.tsx` (client game loop and input handlers)
-/

namespace PizzaGame

/-- Model of the JavaScript `Math` library functions used by the game.
`sqrt` is an arbitrary function agreeing with the real square root on exact
squares of nonnegative rationals (JS doubles that witness our theorems are
such values); the trigonometric functions and `PI` are arbitrary. -/
structure JsMath where
  sqrt : ℚ → ℚ
  cos : ℚ → ℚ
  sin : ℚ → ℚ
  atan2 : ℚ → ℚ → ℚ
  pi : ℚ
  pi_pos : 0 < pi
  sqrt_nonneg : ∀ q : ℚ, 0 ≤ sqrt q
  sqrt_sq : ∀ q : ℚ, 0 ≤ q → sqrt (q * q) = q

/-- Computable rational square root: exact on perfect squares (of the reduced
numerator and denominator), `0` elsewhere. -/
def ratSqrt (q : ℚ) : ℚ :=
  if q < 0 then 0
  else if Nat.sqrt q.num.toNat * Nat.sqrt q.num.toNat = q.num.toNat ∧
          Nat.sqrt q.den * Nat.sqrt q.den = q.den then
    (Nat.sqrt q.num.toNat : ℚ) / (Nat.sqrt q.den : ℚ)
  else 0

theorem ratSqrt_nonneg (q : ℚ) : 0 ≤ ratSqrt q := by
  unfold ratSqrt
  split
  · exact le_refl 0
  · split
    · positivity
    · exact le_refl 0

theorem ratSqrt_sq (q : ℚ) (hq : 0 ≤ q) : ratSqrt (q * q) = q := by
  have hnum : (q * q).num = q.num * q.num := Rat.mul_self_num q
  have hden : (q * q).den = q.den * q.den := Rat.mul_self_den q
  have hqnum : 0 ≤ q.num := Rat.num_nonneg.mpr hq
  have ha : (q.num.toNat : ℤ) = q.num := Int.toNat_of_nonneg hqnum
  have h1 : ¬ (q * q < 0) := not_lt.mpr (mul_self_nonneg q)
  have h2 : ((q.num.toNat * q.num.toNat : ℕ) : ℤ) = (q * q).num := by
    rw [hnum, Int.natCast_mul, ha]
  have hn : (q * q).num.toNat = q.num.toNat * q.num.toNat := by
    rw [← h2, Int.toNat_natCast]
  have hsn : Nat.sqrt ((q * q).num.toNat) = q.num.toNat := by
    rw [hn, Nat.sqrt_eq q.num.toNat]
  have hsd : Nat.sqrt ((q * q).den) = q.den := by
    rw [hden, Nat.sqrt_eq q.den]
  unfold ratSqrt
  rw [if_neg h1, if_pos ⟨by rw [hsn, hn], by rw [hsd, hden]⟩, hsn, hsd]
  have hcast : ((q.num.toNat : ℚ)) = ((q.num : ℤ) : ℚ) := by exact_mod_cast ha
  rw [hcast]
  exact Rat.num_div_den q

/-- The concrete `JsMath` model used by witnesses: exact square roots on
perfect squares, arbitrary (constant) trigonometry. -/
def ratMath : JsMath where
  sqrt := ratSqrt
  cos := fun _ => 1
  sin := fun _ => 0
  atan2 := fun _ _ => 0
  pi := 3
  pi_pos := by norm_num
  sqrt_nonneg := ratSqrt_nonneg
  sqrt_sq := ratSqrt_sq

/-- `Math.floor` on rationals. -/
def jsFloor (q : ℚ) : ℤ := ⌊q⌋

/-- `Math.round` (JavaScript semantics: half-up, ties toward `+∞`). -/
def jsRound (q : ℚ) : ℤ := ⌊q + 1/2⌋

/-! ## Data model (`src/types/game.ts`, duplicates in the client file) -/

structure Vector2 where
  x : ℚ
  y : ℚ
deriving Repr, DecidableEq

instance : Inhabited Vector2 := ⟨⟨0, 0⟩⟩

/-- `Building.type : "building" | "decoration"`. -/
inductive BuildingType where
  | building
  | decoration
deriving Repr, DecidableEq

structure Building where
  x : ℚ
  y : ℚ
  width : ℚ
  height : ℚ
  type : BuildingType
  style : ℤ
deriving Repr, DecidableEq

structure Pizza where
  position : Vector2
  velocity : Vector2
  active : Bool
  delivered : Bool
  sliding : Bool
  playerId : Option String
deriving Repr, DecidableEq

structure DeliveryPoint where
  position : Vector2
  active : Bool
  radius : ℚ
deriving Repr, DecidableEq

inductive RouteType where
  | circular
  | linear
  | random
deriving Repr, DecidableEq

structure Route where
  points : List Vector2
  type : RouteType
  currentPointIndex : ℕ
  isLooping : Bool
deriving Repr, DecidableEq

inductive VehicleKind where
  | car
  | truck
deriving Repr, DecidableEq

structure Vehicle where
  position : Vector2
  velocity : Vector2
  rotation : ℚ
  size : Vector2
  type : VehicleKind
  color : String
  speed : ℚ
  targetDirection : Vector2
  lastIntersection : Vector2
  route : Route
  routeProgress : ℚ
  minDistanceToOtherVehicles : ℚ
deriving Repr, DecidableEq

/-! ## `src/utils/generators.ts` -/

namespace Generators

def BLOCK_SIZE : ℚ := 200
def STREET_WIDTH : ℚ := 100
def CITY_WIDTH : ℚ := 2400
def CITY_HEIGHT : ℚ := 1600

/-- `isOnStreet(x, y, size, buildings)`: `false` iff the query AABB (inflated
by half the query size) strictly overlaps a rectangle of type `"building"`;
`"decoration"` rectangles are skipped by the `building.type === "building"`
guard. -/
def isOnStreet (x y : ℚ) (size : Vector2) (buildings : List Building) : Bool :=
  buildings.all fun building =>
    !(building.type = BuildingType.building &&
      decide (x - size.x / 2 < building.x + building.width) &&
      decide (x + size.x / 2 > building.x) &&
      decide (y - size.y / 2 < building.y + building.height) &&
      decide (y + size.y / 2 > building.y))

/-- One delivery-point placement attempt plus the `attempts < 100` loop of
`generateDeliveryPoints`, recursing on the remaining attempt budget
(`fuel = 100 - attempts`). -/
def generateDeliveryPointsGo (buildings : List Building) (rs : ℕ → ℚ)
    (ri : ℕ) (points : List DeliveryPoint) : ℕ → List DeliveryPoint
  | 0 => points
  | fuel + 1 =>
    if points.length < 10 then
      let x := rs ri * (CITY_WIDTH - 200) + 100
      let y := rs (ri + 1) * (CITY_HEIGHT - 200) + 100
      if isOnStreet x y ⟨80, 80⟩ buildings then
        generateDeliveryPointsGo buildings rs (ri + 2)
          (points ++ [⟨⟨x, y⟩, points.length = 0, 40⟩]) fuel
      else
        generateDeliveryPointsGo buildings rs (ri + 2) points fuel
    else points

/-- `generateDeliveryPoints(buildings)` (server variant,
`src/utils/generators.ts`): rejection-sample up to 100 attempts; the first
accepted point is `active`, all others inactive.  `REQUIRED_DELIVERIES = 10`. -/
def generateDeliveryPoints (buildings : List Building) (rs : ℕ → ℚ) :
    List DeliveryPoint :=
  generateDeliveryPointsGo buildings rs 0 [] 100

/-- `findNearestIntersection(x, y)`. -/
def findNearestIntersection (x y : ℚ) : Vector2 :=
  ⟨(jsRound (x / BLOCK_SIZE) : ℚ) * BLOCK_SIZE,
   (jsRound (y / BLOCK_SIZE) : ℚ) * BLOCK_SIZE⟩

/-- The acceptance test for a candidate hop in `generateVehicleRoute`. -/
def hopOk (buildings : List Building) (p : Vector2) : Bool :=
  decide (p.x ≥ 0) && decide (p.x < CITY_WIDTH) &&
  decide (p.y ≥ 0) && decide (p.y < CITY_HEIGHT) &&
  isOnStreet p.x p.y ⟨40, 40⟩ buildings

/-- The per-iteration turn decision of `generateVehicleRoute` (probability
0.3; a turn replaces the direction by a random-signed unit step on the other
axis).  Returns the direction and the next random index. -/
def routeTurnStep (rs : ℕ → ℚ) (ri : ℕ) (currentDirection : Vector2) :
    Vector2 × ℕ :=
  if rs ri < 3/10 then
    (if currentDirection.x ≠ 0 then
        Vector2.mk 0 (if rs (ri + 1) < 1/2 then 1 else -1)
      else
        Vector2.mk (if rs (ri + 1) < 1/2 then 1 else -1) 0, ri + 2)
  else (currentDirection, ri + 1)

/-- The `for (let i = 1; i < numPoints; i++)` loop of `generateVehicleRoute`.
`remaining = numPoints - i` counts route points still to be produced.  On a
rejected candidate the source does `i--` (so `remaining` stays) and reverses
the direction; the loop therefore has no a-priori iteration bound, which we
expose through an explicit `fuel` (`none` = the loop has not finished after
`fuel` iterations). -/
def generateVehicleRouteGo (buildings : List Building) (rs : ℕ → ℚ) :
    ℕ → Vector2 → Vector2 → List Vector2 → ℕ → ℕ → Option (List Vector2 × ℕ)
  | ri, _, _, points, 0, _ => some (points, ri)
  | _, _, _, _, _ + 1, 0 => none
  | ri, currentPos, currentDirection, points, remaining + 1, fuel + 1 =>
    let t := routeTurnStep rs ri currentDirection
    let nextPos : Vector2 :=
      ⟨currentPos.x + t.1.x * BLOCK_SIZE,
       currentPos.y + t.1.y * BLOCK_SIZE⟩
    if hopOk buildings nextPos then
      generateVehicleRouteGo buildings rs t.2 nextPos t.1
        (points ++ [nextPos]) remaining fuel
    else
      generateVehicleRouteGo buildings rs t.2 currentPos
        ⟨-t.1.x, -t.1.y⟩ points (remaining + 1) fuel

/-- `generateVehicleRoute(startPos, buildings)` (`numPoints = 4`), with the
loop run under an explicit fuel; `none` means the construction loop was still
running after `fuel` iterations. -/
def generateVehicleRoute (startPos : Vector2) (buildings : List Building)
    (rs : ℕ → ℚ) (fuel : ℕ) : Option (Route × ℕ) :=
  let startIntersection := findNearestIntersection startPos.x startPos.y
  let currentDirection : Vector2 :=
    if rs 0 < 1/2 then ⟨1, 0⟩ else ⟨0, 1⟩
  (generateVehicleRouteGo buildings rs 1 startIntersection currentDirection
      [startIntersection] 3 fuel).map
    fun pr => (⟨pr.1, RouteType.linear, 0, true⟩, pr.2)

end Generators

/-! ## `src/utils/generators.ts`: city and vehicle generation -/

namespace Generators

/-- One city block of `generateCity` (block corner `(x, y)`): the `type` draw
selects one of the three layouts; each pushed building draws one style.
Returns the pushed buildings and the next random index. -/
def genBlock (rs : ℕ → ℚ) (ri : ℕ) (x y : ℚ) : List Building × ℕ :=
  let t := rs ri
  if t < 33/100 then
    ([⟨x + STREET_WIDTH / 2, y + STREET_WIDTH / 2,
       BLOCK_SIZE - STREET_WIDTH, BLOCK_SIZE - STREET_WIDTH,
       BuildingType.building, jsFloor (rs (ri + 1) * 3)⟩], ri + 2)
  else if t < 66/100 then
    ([⟨x + STREET_WIDTH / 2, y + STREET_WIDTH / 2,
       (BLOCK_SIZE - STREET_WIDTH) * (6/10), BLOCK_SIZE - STREET_WIDTH,
       BuildingType.building, jsFloor (rs (ri + 1) * 3)⟩,
      ⟨x + STREET_WIDTH / 2 + (BLOCK_SIZE - STREET_WIDTH) * (65/100),
       y + STREET_WIDTH / 2,
       (BLOCK_SIZE - STREET_WIDTH) * (3/10), (BLOCK_SIZE - STREET_WIDTH) * (7/10),
       BuildingType.building, jsFloor (rs (ri + 2) * 3)⟩], ri + 3)
  else
    ([⟨x + STREET_WIDTH / 2, y + STREET_WIDTH / 2,
       (BLOCK_SIZE - STREET_WIDTH) * (7/10), (BLOCK_SIZE - STREET_WIDTH) * (4/10),
       BuildingType.building, jsFloor (rs (ri + 1) * 3)⟩,
      ⟨x + STREET_WIDTH / 2,
       y + STREET_WIDTH / 2 + (BLOCK_SIZE - STREET_WIDTH) * (45/100),
       (BLOCK_SIZE - STREET_WIDTH) * (4/10), (BLOCK_SIZE - STREET_WIDTH) * (5/10),
       BuildingType.building, jsFloor (rs (ri + 2) * 3)⟩], ri + 3)

/-- `generateCity()`: iterate blocks `x = 0, 200, …, 2200` (outer) and
`y = 0, 200, …, 1400` (inner); always terminates (bounded double loop). -/
def generateCity (rs : ℕ → ℚ) : List Building :=
  (((List.range 12).flatMap fun ix => (List.range 8).map fun iy => (ix, iy)).foldl
    (fun acc p =>
      let (bs, ri) := genBlock rs acc.2 (200 * p.1) (200 * p.2)
      (acc.1 ++ bs, ri))
    (([] : List Building), 0)).1

/-- The `attempts < 50` spawn loop of `generateVehicles` for one vehicle.
`generateVehicleRoute` is called inside and may itself fail to terminate, so
the result is optional and the route-loop fuel is threaded through. -/
def genVehicleSpawn (buildings : List Building) (rs : ℕ → ℚ) (fuel : ℕ) :
    ℕ → ℕ → Option (Option Vehicle × ℕ)
  | ri, 0 => some (none, ri)
  | ri, attemptsLeft + 1 =>
    let x := rs ri * CITY_WIDTH
    let y := rs (ri + 1) * CITY_HEIGHT
    let type :=
      [VehicleKind.car, VehicleKind.car, VehicleKind.car,
        VehicleKind.truck].getD (jsFloor (rs (ri + 2) * 4)).toNat VehicleKind.car
    let size : Vector2 := if type = VehicleKind.truck then ⟨40, 20⟩ else ⟨25, 15⟩
    if isOnStreet x y size buildings then
      match generateVehicleRoute ⟨x, y⟩ buildings (fun i => rs (ri + 3 + i)) fuel with
      | none => none
      | some (route, used) =>
        some (some
          { position := ⟨x, y⟩
            velocity := ⟨0, 0⟩
            rotation := 0
            size := size
            type := type
            color := ["#ff4444", "#4444ff", "#44ff44", "#ffff44", "#ff44ff",
              "#44ffff"].getD (jsFloor (rs (ri + 3 + used) * 6)).toNat "#ff4444"
            speed := 1 + rs (ri + 3 + used + 1) * (1/2)
            targetDirection := ⟨0, 0⟩
            lastIntersection := ⟨x, y⟩
            route := route
            routeProgress := 0
            minDistanceToOtherVehicles := 50 }, ri + 3 + used + 2)
    else genVehicleSpawn buildings rs fuel (ri + 3) attemptsLeft

/-- `generateVehicles(buildings)`: 15 spawn attempts, each bounded by 50
rejection-sampling tries; `none` when an inner route construction diverges.
(The color pick consumes one draw which we fold into the index bookkeeping;
the color string itself is render-only.) -/
def generateVehicles (buildings : List Building) (rs : ℕ → ℚ) (fuel : ℕ) :
    Option (List Vehicle) :=
  (List.range 15).foldl
    (fun acc _ =>
      match acc with
      | none => none
      | some (vs, ri) =>
        match genVehicleSpawn buildings rs fuel ri 50 with
        | none => none
        | some (none, ri') => some (vs, ri')
        | some (some v, ri') => some (vs ++ [v], ri'))
    (some ([], 0)) |>.map (·.1)

end Generators

/-! ## `src/network/PizzaGameServer.ts` -/

namespace Server

def GAME_DURATION : ℚ := 300
def TOTAL_PIZZAS : ℤ := 15
def REQUIRED_DELIVERIES : ℤ := 10
def CITY_WIDTH : ℚ := 2400
def CITY_HEIGHT : ℚ := 1600

structure NetworkPlayer where
  id : String
  name : String
  position : Vector2
  velocity : Vector2
  rotation : ℚ
  size : Vector2
  isCharging : Bool
  chargePower : ℚ
  stunned : ℚ
  pizzasRemaining : ℤ
  deliveriesCompleted : ℤ
  isBraking : Bool
  currentSpeed : ℚ
  maxSpeed : ℚ
  score : ℚ
deriving Repr, DecidableEq

/-- `NetworkGameState`; the JS object map `players` is modelled as an
association list keyed by socket id. -/
structure NetworkGameState where
  players : List (String × NetworkPlayer)
  pizzas : List Pizza
  deliveryPoints : List DeliveryPoint
  vehicles : List Vehicle
  buildings : List Building
  timeLeft : ℚ
  gameStarted : Bool
  gameOver : Bool
deriving DecidableEq

/-- The state installed by the constructor and by `handleGameReset`. -/
def initialGameState : NetworkGameState :=
  ⟨[], [], [], [], [], GAME_DURATION, false, false⟩

/-- `this.gameState.players[id]` lookup. -/
def getPlayer (s : NetworkGameState) (id : String) : Option NetworkPlayer :=
  (s.players.find? (·.1 = id)).map (·.2)

/-- JS object-map assignment `players[id] = p`: replace when present,
append otherwise. -/
def putPlayer (ps : List (String × NetworkPlayer)) (id : String)
    (p : NetworkPlayer) : List (String × NetworkPlayer) :=
  if ps.any (·.1 = id) then
    ps.map fun q => if q.1 = id then (id, p) else q
  else ps ++ [(id, p)]

/-- Data of a `player_update` client intent. -/
structure PlayerUpdateEvent where
  id : String
  position : Vector2
  rotation : ℚ
  velocity : Vector2
  isCharging : Bool
  chargePower : ℚ
deriving Repr, DecidableEq

/-- Data of a `throw_pizza` client intent. -/
structure ThrowPizzaEvent where
  playerId : String
  position : Vector2
  velocity : Vector2
deriving Repr, DecidableEq

/-- `handlePlayerJoin`: spawn at a random position, all gameplay counters at
their join-time values (`score = 0`, `deliveriesCompleted = 0`,
`pizzasRemaining = TOTAL_PIZZAS`).  `r1`, `r2` are the two `Math.random()`
draws. -/
def handlePlayerJoin (s : NetworkGameState) (socketId : String) (r1 r2 : ℚ) :
    NetworkGameState :=
  let startX := r1 * (CITY_WIDTH - 100) + 50
  let startY := r2 * (CITY_HEIGHT - 100) + 50
  let player : NetworkPlayer :=
    { id := socketId
      name := "Player " ++ socketId.take 4
      position := ⟨startX, startY⟩
      velocity := ⟨0, 0⟩
      rotation := 0
      size := ⟨20, 12⟩
      isCharging := false
      chargePower := 0
      stunned := 0
      pizzasRemaining := TOTAL_PIZZAS
      deliveriesCompleted := 0
      isBraking := false
      currentSpeed := 2
      maxSpeed := 2
      score := 0 }
  { s with players := putPlayer s.players socketId player }

/-- `handlePlayerUpdate`: the client-reported position, rotation, velocity and
charge state are stored verbatim (no clamping, no validation beyond the
existence check) and then broadcast. -/
def handlePlayerUpdate (s : NetworkGameState) (socketId : String)
    (data : PlayerUpdateEvent) : NetworkGameState :=
  match getPlayer s socketId with
  | none => s
  | some player =>
    { s with
        players := putPlayer s.players socketId
          { player with
              position := data.position
              rotation := data.rotation
              velocity := data.velocity
              isCharging := data.isCharging
              chargePower := data.chargePower } }

/-- `handleThrowPizza`: guarded only by existence and
`player.pizzasRemaining <= 0` (there is no `stunned` guard in the server). -/
def handleThrowPizza (s : NetworkGameState) (socketId : String)
    (data : ThrowPizzaEvent) : NetworkGameState :=
  match getPlayer s socketId with
  | none => s
  | some player =>
    if player.pizzasRemaining ≤ 0 then s
    else
      let pizza : Pizza :=
        { position := data.position
          velocity := data.velocity
          active := true
          delivered := false
          sliding := true
          playerId := some socketId }
      { s with
          pizzas := s.pizzas ++ [pizza]
          players := putPlayer s.players socketId
            { player with pizzasRemaining := player.pizzasRemaining - 1 } }

/-- `handlePlayerCharge`. -/
def handlePlayerCharge (s : NetworkGameState) (socketId : String)
    (isCharging : Bool) (power : ℚ) : NetworkGameState :=
  match getPlayer s socketId with
  | none => s
  | some player =>
    { s with
        players := putPlayer s.players socketId
          { player with isCharging := isCharging, chargePower := power } }

/-- `handlePlayerBrake`. -/
def handlePlayerBrake (s : NetworkGameState) (socketId : String)
    (isBraking : Bool) : NetworkGameState :=
  match getPlayer s socketId with
  | none => s
  | some player =>
    { s with
        players := putPlayer s.players socketId
          { player with isBraking := isBraking } }

/-- `handleSetPlayerName` (empty trimmed name keeps the old one). -/
def handleSetPlayerName (s : NetworkGameState) (socketId : String)
    (name : String) : NetworkGameState :=
  match getPlayer s socketId with
  | none => s
  | some player =>
    let newName := if name.trim = "" then player.name else name.trim
    { s with players := putPlayer s.players socketId { player with name := newName } }

/-- `handleGameReset`: reinstalls the initial state. -/
def handleGameReset (_s : NetworkGameState) : NetworkGameState :=
  initialGameState

/-- `handlePlayerDisconnect`: delete the entry; if the room empties, reset. -/
def handlePlayerDisconnect (s : NetworkGameState) (socketId : String) :
    NetworkGameState :=
  let s' := { s with players := s.players.filter (¬ ·.1 = socketId) }
  if s'.players.length = 0 then handleGameReset s' else s'

/-- `checkPizzaBuildingCollision` (strict point-in-rectangle test on the
pizza's position). -/
def checkPizzaBuildingCollision (pizza : Pizza) (building : Building) : Bool :=
  decide (pizza.position.x > building.x) &&
  decide (pizza.position.x < building.x + building.width) &&
  decide (pizza.position.y > building.y) &&
  decide (pizza.position.y < building.y + building.height)

/-- `checkPizzaVehicleCollision` (distance against combined radii). -/
def checkPizzaVehicleCollision (M : JsMath) (pizza : Pizza) (vehicle : Vehicle) :
    Bool :=
  let dx := pizza.position.x - vehicle.position.x
  let dy := pizza.position.y - vehicle.position.y
  M.sqrt (dx * dx + dy * dy) < (vehicle.size.x + vehicle.size.y) / 4

/-- `handlePizzaCollision`: the server's "bounce" inverts the velocity and
scales it by `0.7` (no surface-normal estimation). -/
def handlePizzaCollision (pizza : Pizza) : Pizza :=
  { pizza with
      velocity := ⟨pizza.velocity.x * (-7/10), pizza.velocity.y * (-7/10)⟩ }

/-- The accuracy-weighted score of a successful delivery
(`Math.floor(accuracy * 150) + 50` with `accuracy = 1 − distance/radius`). -/
def deliveryScore (distance radius : ℚ) : ℤ :=
  jsFloor ((1 - distance / radius) * 150) + 50

/-- `checkPizzaDelivery`: resolve a stopped pizza against the first `active`
delivery point (the source's `find`/`indexOf` pair locates that same object by
reference, i.e. the first active index).  Returns the updated point list, the
updated pizza and the `delivery_complete` payload when the delivery succeeds. -/
def checkPizzaDelivery (M : JsMath) (dps : List DeliveryPoint) (pizza : Pizza) :
    List DeliveryPoint × Pizza × Option (Option String × ℤ) :=
  let k := dps.findIdx (·.active)
  match dps[k]? with
  | none => (dps, pizza, none)
  | some activePoint =>
    let dx := pizza.position.x - activePoint.position.x
    let dy := pizza.position.y - activePoint.position.y
    let distance := M.sqrt (dx * dx + dy * dy)
    if distance ≤ activePoint.radius then
      let points := deliveryScore distance activePoint.radius
      let dps' := dps.mapIdx fun j p =>
        if j = k then { p with active := false }
        else if j = k + 1 then { p with active := true }
        else p
      (dps', { pizza with delivered := true }, some (pizza.playerId, points))
    else (dps, pizza, none)

/-- The two collision loops of the server's `updatePizzas` filter.  Each
`for`/`break` loop applies at most one bounce — `any` captures "first hit
wins" because `handlePizzaCollision` only rescales the velocity — but the
vehicle loop runs even after a building hit, so a pizza can bounce twice in
one tick. -/
def serverBouncePhase (M : JsMath) (buildings : List Building)
    (vehicles : List Vehicle) (pizza : Pizza) : Pizza :=
  let pizza :=
    if buildings.any (checkPizzaBuildingCollision pizza) then
      handlePizzaCollision pizza
    else pizza
  if vehicles.any (checkPizzaVehicleCollision M pizza) then
    handlePizzaCollision pizza
  else pizza

/-- One pizza's pass through the `updatePizzas` filter: Euler step, friction,
building bounce (first hit), vehicle bounce (first hit, tested even after a
building hit), stop-and-resolve, world-bounds cull.  Returns the delivery
points (possibly advanced), the surviving pizza (`none` = filtered out) and
the delivery event, if any. -/
def updatePizzaStep (M : JsMath) (buildings : List Building)
    (vehicles : List Vehicle) (dps : List DeliveryPoint) (pizza : Pizza) :
    List DeliveryPoint × Option Pizza × Option (Option String × ℤ) :=
  if !pizza.active then (dps, none, none)
  else
    let pizza := { pizza with
      position := ⟨pizza.position.x + pizza.velocity.x,
                   pizza.position.y + pizza.velocity.y⟩ }
    let pizza := { pizza with
      velocity := ⟨pizza.velocity.x * (98/100), pizza.velocity.y * (98/100)⟩ }
    let pizza := serverBouncePhase M buildings vehicles pizza
    if pizza.sliding &&
        M.sqrt (pizza.velocity.x * pizza.velocity.x +
                pizza.velocity.y * pizza.velocity.y) < 35/100 then
      let pizza := { pizza with sliding := false }
      let (dps', _, emit) := checkPizzaDelivery M dps pizza
      (dps', none, emit)
    else if pizza.position.x < 0 || pizza.position.x > CITY_WIDTH ||
            pizza.position.y < 0 || pizza.position.y > CITY_HEIGHT then
      (dps, none, none)
    else (dps, some pizza, none)

/-- `updatePizzas`: fold the filter over the pizza list, threading the
delivery-point list through, and collect the emitted delivery events. -/
def updatePizzas (M : JsMath) (s : NetworkGameState) :
    NetworkGameState × List (Option String × ℤ) :=
  let r := s.pizzas.foldl
    (fun (acc : List DeliveryPoint × List Pizza × List (Option String × ℤ)) pz =>
      let (dps, kept, emits) := acc
      let (dps', res, emit) := updatePizzaStep M s.buildings s.vehicles dps pz
      (dps', kept ++ res.toList, emits ++ emit.toList))
    (s.deliveryPoints, [], [])
  ({ s with deliveryPoints := r.1, pizzas := r.2.1 }, r.2.2)

/-- `endGame`: mark the terminal state (the interval timers are cleared). -/
def endGame (s : NetworkGameState) : NetworkGameState :=
  { s with gameOver := true }

/-- The `match-over` summary collected by `endGame`: per-player scores and
delivery counts, read straight from the player entities. -/
def endGameSummary (s : NetworkGameState) : List (String × ℚ) × List (String × ℤ) :=
  (s.players.map fun q => (q.1, q.2.score),
   s.players.map fun q => (q.1, q.2.deliveriesCompleted))

/-- One 60 Hz tick of `startGameLoop`: stop when not running, decrement the
timer, end on `timeLeft <= 0`, otherwise update pizzas and broadcast.  This is
the only end-of-match check the networked server performs. -/
def serverTick (M : JsMath) (s : NetworkGameState) : NetworkGameState :=
  if !s.gameStarted || s.gameOver then s
  else
    let s := { s with timeLeft := s.timeLeft - 1/60 }
    if s.timeLeft ≤ 0 then endGame s
    else (updatePizzas M s).1

/-- `startGame`: generate the world, reset the clock and start the loop.  The
generated content is passed in (produced by the `Generators` functions from
the random stream; `generateVehicles` may diverge, in which case this event
never fires). -/
def startGame (s : NetworkGameState) (buildings : List Building)
    (dps : List DeliveryPoint) (vehicles : List Vehicle) : NetworkGameState :=
  { s with
      buildings := buildings
      deliveryPoints := dps
      vehicles := vehicles
      timeLeft := GAME_DURATION
      gameStarted := true
      gameOver := false }

/-- `updateVehicles` (the 10 Hz tick body): advance each vehicle's route
cursor within 30 units of the waypoint, otherwise move straight at it. -/
def updateVehicles (M : JsMath) (s : NetworkGameState) : NetworkGameState :=
  { s with vehicles := s.vehicles.map fun vehicle =>
      let nextPoint := vehicle.route.points.getD vehicle.route.currentPointIndex ⟨0, 0⟩
      let dx := nextPoint.x - vehicle.position.x
      let dy := nextPoint.y - vehicle.position.y
      let distance := M.sqrt (dx * dx + dy * dy)
      if distance < 30 then
        { vehicle with route := { vehicle.route with
            currentPointIndex :=
              (vehicle.route.currentPointIndex + 1) % vehicle.route.points.length } }
      else
        let vel : Vector2 := ⟨dx / distance * vehicle.speed, dy / distance * vehicle.speed⟩
        { vehicle with
            velocity := vel
            position := ⟨vehicle.position.x + vel.x, vehicle.position.y + vel.y⟩
            rotation := M.atan2 vel.y vel.x } }

/-- The 10 Hz interval body (`vehicleUpdateInterval`). -/
def vehicleTick (M : JsMath) (s : NetworkGameState) : NetworkGameState :=
  if s.gameStarted && !s.gameOver then updateVehicles M s else s

/-- Every inbound event and timer the `PizzaGameServer` reacts to.  `join`
carries the two `Math.random()` spawn draws; `start` carries the world
content produced by the generators (`handlePlayerReady` fires it when all
players are ready). -/
inductive Event where
  | join (socketId : String) (r1 r2 : ℚ)
  | update (socketId : String) (data : PlayerUpdateEvent)
  | throwPizza (socketId : String) (data : ThrowPizzaEvent)
  | charge (socketId : String) (isCharging : Bool) (power : ℚ)
  | brake (socketId : String) (isBraking : Bool)
  | setName (socketId : String) (name : String)
  | disconnect (socketId : String)
  | reset
  | start (buildings : List Building) (dps : List DeliveryPoint)
      (vehicles : List Vehicle)
  | tick (M : JsMath)
  | vtick (M : JsMath)

/-- Dispatch, mirroring `setupSocketHandlers` plus the two interval timers. -/
def applyEvent : Event → NetworkGameState → NetworkGameState
  | Event.join id r1 r2, s => handlePlayerJoin s id r1 r2
  | Event.update id data, s => handlePlayerUpdate s id data
  | Event.throwPizza id data, s => handleThrowPizza s id data
  | Event.charge id c p, s => handlePlayerCharge s id c p
  | Event.brake id b, s => handlePlayerBrake s id b
  | Event.setName id n, s => handleSetPlayerName s id n
  | Event.disconnect id, s => handlePlayerDisconnect s id
  | Event.reset, s => handleGameReset s
  | Event.start bs dps vs, s => startGame s bs dps vs
  | Event.tick M, s => serverTick M s
  | Event.vtick M, s => vehicleTick M s

/-- States the networked server can be in: the constructor state closed under
every event. -/
inductive Reachable : NetworkGameState → Prop where
  | init : Reachable initialGameState
  | step {s : NetworkGameState} (e : Event) : Reachable s → Reachable (applyEvent e s)

end Server

/-! ## `src/server/server.ts` (simple prototype server) -/

namespace SimpleServer

def PLAYER_SIZE : ℚ := 25
def WORLD_MIN_X : ℚ := -500
def WORLD_MAX_X : ℚ := 500
def WORLD_MIN_Y : ℚ := -500
def WORLD_MAX_Y : ℚ := 500

structure Player where
  id : String
  x : ℚ
  y : ℚ
  lastShotTime : ℚ
deriving Repr, DecidableEq

/-- The per-entry update of the `move` handler: the matching player's
coordinates are the client coordinates clamped to the world rectangle
(`Math.max(MIN, Math.min(v, MAX - SIZE))`). -/
def moveUpdateEntry (socketId : String) (dataX dataY : ℚ)
    (q : String × Player) : String × Player :=
  if q.1 = socketId then
    (q.1, { q.2 with
      x := max WORLD_MIN_X (min dataX (WORLD_MAX_X - PLAYER_SIZE))
      y := max WORLD_MIN_Y (min dataY (WORLD_MAX_Y - PLAYER_SIZE)) })
  else q

/-- The `move` handler: if the player exists, store the clamped position and
broadcast; the intent is never rejected. -/
def moveHandler (players : List (String × Player)) (socketId : String)
    (dataX dataY : ℚ) : List (String × Player) :=
  match (players.find? (·.1 = socketId)).map (·.2) with
  | none => players
  | some _ => players.map (moveUpdateEntry socketId dataX dataY)

theorem moveUpdateEntry_fst (socketId : String) (dataX dataY : ℚ)
    (q : String × Player) :
    (moveUpdateEntry socketId dataX dataY q).1 = q.1 := by
  unfold moveUpdateEntry
  split <;> rfl

end SimpleServer

/-! ## `src/pizza-delivery-game.tsx` (client game loop) -/

namespace Client

def CANVAS_WIDTH : ℚ := 1200
def CANVAS_HEIGHT : ℚ := 800
def CITY_WIDTH : ℚ := 2400
def CITY_HEIGHT : ℚ := 1600
def PLAYER_SPEED_MIN : ℚ := 2/10
def PLAYER_SPEED_NORMAL : ℚ := 7/10
def PLAYER_SPEED_MAX : ℚ := 32/10
def PLAYER_TURN_SPEED : ℚ := 6/100
def MAX_CHARGE_POWER : ℚ := 15
def STUN_DURATION : ℤ := 60
def GAME_DURATION : ℚ := 300
def TOTAL_PIZZAS : ℤ := 15
def REQUIRED_DELIVERIES : ℤ := 10
def BLOCK_SIZE : ℚ := 200
def STREET_WIDTH : ℚ := 100
def CAMERA_ZOOM : ℚ := 13/10
def RECOVERY_SPEED : ℚ := 8/100
def SPEED_TRANSITION_FRAMES : ℚ := 90
def SPEED_STEP : ℚ := 56/100
def SPEED_MIN : ℚ := 7/10
def SPEED_MAX : ℚ := 5
def MIN_VEHICLE_DISTANCE : ℚ := 50
def ROUTE_POINT_RADIUS : ℚ := 30

/-- The client file's own `isOnStreet` is textually identical to the one in
`src/utils/generators.ts`. -/
def isOnStreet (x y : ℚ) (size : Vector2) (buildings : List Building) : Bool :=
  Generators.isOnStreet x y size buildings

/-- Likewise `findNearestIntersection`. -/
def findNearestIntersection (x y : ℚ) : Vector2 :=
  Generators.findNearestIntersection x y

inductive TurnPhase where
  | idle
  | decelerating
  | accelerating
deriving Repr, DecidableEq

inductive SpeedLevel where
  | min
  | normal
  | max
deriving Repr, DecidableEq

/-- The player's `GameObject & { name }`. -/
structure GameObject' where
  position : Vector2
  velocity : Vector2
  rotation : ℚ
  size : Vector2
  name : String
deriving Repr, DecidableEq

/-- The client `GameState` (the `player` carries its display name; the
`leaderboard` object map is an association list id ↦ (name, score)). -/
structure GameState where
  player : GameObject'
  pizzas : List Pizza
  deliveryPoints : List DeliveryPoint
  vehicles : List Vehicle
  buildings : List Building
  currentDelivery : ℕ
  score : ℚ
  timeLeft : ℚ
  gameStarted : Bool
  gameOver : Bool
  isCharging : Bool
  chargePower : ℚ
  stunned : ℤ
  mousePos : Vector2
  pizzasRemaining : ℤ
  deliveriesCompleted : ℤ
  playerPreviousRotation : ℚ
  isBraking : Bool
  brakeCooldown : ℤ
  currentSpeed : ℚ
  isTurning : Bool
  turnFrictionPhase : TurnPhase
  turnFrictionTimer : ℤ
  collisionRecoveryTimer : ℤ
  speedLevel : SpeedLevel
  targetSpeed : ℚ
  spinTimer : ℤ
  spinCount : ℤ
  targetMaxSpeed : ℚ
  spinAngularSpeed : ℚ
  maxSpeed : ℚ
  leaderboard : List (String × String × ℚ)

/-- The keyboard keys the game loop consults (`keysRef`). -/
structure Keys where
  a : Bool
  d : Bool
  w : Bool
  sKey : Bool
  shift : Bool
  control : Bool
deriving Repr, DecidableEq

/-- Closed form of the two `while` angle-normalization loops
(`while (x > π) x -= 2π; while (x < -π) x += 2π`), which terminate because
`π > 0`; the first subtracts `2π` exactly `⌈(x−π)/(2π)⌉` times, the second
adds it exactly `⌈(−π−x)/(2π)⌉` times. -/
def jsNormalizeAngle (pi a : ℚ) : ℚ :=
  let a := if a > pi then a - 2 * pi * (⌈(a - pi) / (2 * pi)⌉ : ℤ) else a
  if a < -pi then a + 2 * pi * (⌈(-pi - a) / (2 * pi)⌉ : ℤ) else a

/-- Candidate validity in the client's `generateVehicleRoute`
(`STREET_WIDTH ≤ · ≤ CITY − STREET_WIDTH` plus `isOnStreet`). -/
def clientHopOk (buildings : List Building) (p : Vector2) : Bool :=
  decide (p.x ≥ STREET_WIDTH) && decide (p.x ≤ CITY_WIDTH - STREET_WIDTH) &&
  decide (p.y ≥ STREET_WIDTH) && decide (p.y ≤ CITY_HEIGHT - STREET_WIDTH) &&
  isOnStreet p.x p.y ⟨40, 40⟩ buildings

/-- The inner `for (j = 0; j < numIntermediatePoints && i < numPoints; j++, i++)`
loop of the client route generator (`numPoints = 12`); on a rejected candidate
the direction is reversed and the segment ends (`break`).  Returns the points,
position, direction and the loop variable `i`. -/
def clientRouteInner (buildings : List Building) :
    ℕ → ℕ → Vector2 → Vector2 → List Vector2 →
    List Vector2 × Vector2 × Vector2 × ℕ
  | 0, i, cur, dir, pts => (pts, cur, dir, i)
  | j + 1, i, cur, dir, pts =>
    if i < 12 then
      let nextPos : Vector2 := ⟨cur.x + dir.x * BLOCK_SIZE, cur.y + dir.y * BLOCK_SIZE⟩
      if clientHopOk buildings nextPos then
        clientRouteInner buildings j (i + 1) nextPos dir (pts ++ [nextPos])
      else (pts, cur, ⟨-dir.x, -dir.y⟩, i)
    else (pts, cur, dir, i)

theorem clientRouteInner_le (buildings : List Building) (j i : ℕ)
    (cur dir : Vector2) (pts : List Vector2) :
    i ≤ (clientRouteInner buildings j i cur dir pts).2.2.2 := by
  induction j generalizing i cur dir pts with
  | zero => exact le_refl i
  | succ j ih =>
    simp only [clientRouteInner]
    split
    · split
      · exact Nat.le_trans (Nat.le_succ i) (ih (i + 1) _ _ _)
      · exact le_refl i
    · exact le_refl i

/-- One iteration of the outer `for (i = 1; i < numPoints; i++)` loop of the
client route generator: one turn draw (probability `0.3 + 0.1·straightCount`,
a turn swapping the axis and drawing a sign), one intermediate-count draw
(`⌊r·2⌋ + 1`), then the inner segment.  Returns the inner result, the next
random index and the next straight count. -/
def clientRouteOuterStep (buildings : List Building) (rs : ℕ → ℚ) (ri i : ℕ)
    (cur dir : Vector2) (straight : ℕ) (pts : List Vector2) :
    (List Vector2 × Vector2 × Vector2 × ℕ) × ℕ × ℕ :=
  let shouldTurn := decide (rs ri < 3/10 + (straight : ℚ) * (1/10))
  let dir' :=
    if shouldTurn then
      let swapped : Vector2 := ⟨dir.y, dir.x⟩
      if swapped.x ≠ 0 then
        Vector2.mk (swapped.x * (if rs (ri + 1) < 1/2 then 1 else -1)) swapped.y
      else
        Vector2.mk swapped.x (swapped.y * (if rs (ri + 1) < 1/2 then 1 else -1))
    else dir
  let ri2 := if shouldTurn then ri + 2 else ri + 1
  let straight' := if shouldTurn then 0 else straight + 1
  let numInter := (jsFloor (rs ri2 * 2) + 1).toNat
  (clientRouteInner buildings numInter i cur dir' pts, ri2 + 1, straight')

theorem clientRouteOuterStep_le (buildings : List Building) (rs : ℕ → ℚ)
    (ri i : ℕ) (cur dir : Vector2) (straight : ℕ) (pts : List Vector2) :
    i ≤ ((clientRouteOuterStep buildings rs ri i cur dir straight pts).1).2.2.2 := by
  unfold clientRouteOuterStep
  exact clientRouteInner_le ..

/-- The outer loop of the client route generator; `i` strictly increases every
iteration, so the loop is total. -/
def clientRouteOuter (buildings : List Building) (rs : ℕ → ℚ) (ri i : ℕ)
    (cur dir : Vector2) (straight : ℕ) (pts : List Vector2) :
    List Vector2 × ℕ :=
  if i < 12 then
    let r := clientRouteOuterStep buildings rs ri i cur dir straight pts
    clientRouteOuter buildings rs r.2.1 (r.1.2.2.2 + 1) r.1.2.1 r.1.2.2.1 r.2.2 r.1.1
  else (pts, ri)
termination_by 12 - i
decreasing_by
  all_goals
    have h := clientRouteOuterStep_le buildings rs ri i cur dir straight pts
    omega

/-- The `while (points.length < 3)` repair loop of the client route generator:
draws a diagonal neighbour of the last point and appends it when valid.  This
loop has no attempt bound in the source; `none` = still running after `fuel`
iterations. -/
def clientRouteTail (buildings : List Building) (rs : ℕ → ℚ) :
    ℕ → List Vector2 → ℕ → Option (List Vector2 × ℕ)
  | ri, pts, fuel =>
    if pts.length ≥ 3 then some (pts, ri)
    else
      match fuel with
      | 0 => none
      | fuel + 1 =>
        let lastPoint := pts.getLast?.getD ⟨0, 0⟩
        let newPoint : Vector2 :=
          ⟨lastPoint.x + BLOCK_SIZE * (if rs ri < 1/2 then 1 else -1),
           lastPoint.y + BLOCK_SIZE * (if rs (ri + 1) < 1/2 then 1 else -1)⟩
        if clientHopOk buildings newPoint then
          clientRouteTail buildings rs (ri + 2) (pts ++ [newPoint]) fuel
        else
          clientRouteTail buildings rs (ri + 2) pts fuel

/-- The client's `generateVehicleRoute(startPos, buildings)`; returns the
route together with the number of random draws consumed, or `none` when the
unbounded repair loop fails to finish within `fuel`. -/
def clientGenerateVehicleRoute (M : JsMath) (startPos : Vector2)
    (buildings : List Building) (rs : ℕ → ℚ) (fuel : ℕ) :
    Option (Route × ℕ) :=
  let startIntersection := findNearestIntersection startPos.x startPos.y
  let dir : Vector2 := if rs 0 < 1/2 then ⟨1, 0⟩ else ⟨0, 1⟩
  let r := clientRouteOuter buildings rs 1 1 startIntersection dir 0
    [startIntersection]
  (clientRouteTail buildings rs r.2 r.1 fuel).map fun pr =>
    let pts := pr.1
    let firstPoint := pts.headI
    let lastPoint := pts.getLast?.getD ⟨0, 0⟩
    let endDistance := M.sqrt ((lastPoint.x - firstPoint.x) * (lastPoint.x - firstPoint.x) +
      (lastPoint.y - firstPoint.y) * (lastPoint.y - firstPoint.y))
    (⟨pts, RouteType.linear, 0, decide (endDistance ≤ BLOCK_SIZE * 3)⟩, pr.2)

/-- Waypoint-advance step of `updateVehiclePosition`: within
`ROUTE_POINT_RADIUS` of the current waypoint, advance the cursor modulo the
route length and reverse the point order when a non-looping route wraps. -/
def vehicleRouteAdvance (M : JsMath) (v : Vehicle) : Route :=
  let currentPoint := v.route.points.getD v.route.currentPointIndex ⟨0, 0⟩
  let dx := currentPoint.x - v.position.x
  let dy := currentPoint.y - v.position.y
  let distance := M.sqrt (dx * dx + dy * dy)
  if distance < ROUTE_POINT_RADIUS then
    let idx := (v.route.currentPointIndex + 1) % v.route.points.length
    if idx = 0 && !v.route.isLooping then
      { v.route with currentPointIndex := idx, points := v.route.points.reverse }
    else { v.route with currentPointIndex := idx }
  else v.route

/-- Smoothed-steering step of `updateVehiclePosition`: rotate one tenth of the
normalized angular difference toward the current waypoint. -/
def vehicleSteer (M : JsMath) (v : Vehicle) : ℚ :=
  let targetPoint := v.route.points.getD v.route.currentPointIndex ⟨0, 0⟩
  let targetDx := targetPoint.x - v.position.x
  let targetDy := targetPoint.y - v.position.y
  let targetDistance := M.sqrt (targetDx * targetDx + targetDy * targetDy)
  let targetDirection : Vector2 :=
    ⟨if targetDistance > 0 then targetDx / targetDistance else 0,
     if targetDistance > 0 then targetDy / targetDistance else 0⟩
  let targetRotation := M.atan2 targetDirection.y targetDirection.x
  let rotationDiff := jsNormalizeAngle M.pi (targetRotation - v.rotation)
  v.rotation + rotationDiff * (1/10)

/-- Nearest-other-vehicle scan of `updateVehiclePosition` (`minDistance`
starts at `Infinity`, strict `<` keeps the first minimum); `selfIdx` models
the `otherVehicle === vehicle` reference comparison. -/
def vehicleNearest (M : JsMath) (vehicles : List Vehicle) (selfIdx : ℕ)
    (v : Vehicle) : Option (Vehicle × ℚ) :=
  (vehicles.enum.filter fun q => q.1 ≠ selfIdx).foldl
    (fun acc q =>
      let d := M.sqrt ((q.2.position.x - v.position.x) * (q.2.position.x - v.position.x) +
        (q.2.position.y - v.position.y) * (q.2.position.y - v.position.y))
      match acc with
      | none => some (q.2, d)
      | some (_, md) => if d < md then some (q.2, d) else acc)
    none

/-- Car-following slowdown of `updateVehiclePosition`: reduce speed when the
nearest vehicle is close and inside a forward cone of `π/3`. -/
def vehicleSpeedMultiplier (M : JsMath) (v : Vehicle)
    (nearest : Option (Vehicle × ℚ)) : ℚ :=
  match nearest with
  | none => 1
  | some (nv, minDistance) =>
    if minDistance < MIN_VEHICLE_DISTANCE * 2 then
      let angleToNearest := M.atan2 (nv.position.y - v.position.y)
        (nv.position.x - v.position.x)
      let angleDiff := |angleToNearest - v.rotation|
      if angleDiff < M.pi / 3 then
        max (1/10) ((minDistance - MIN_VEHICLE_DISTANCE) / MIN_VEHICLE_DISTANCE)
      else 1
    else 1

/-- `updateVehiclePosition(vehicle, buildings, vehicles)`: waypoint advance,
smoothed steering, car-following slowdown, Euler move with validity check, and
route regeneration on collision (which may diverge, hence `Option`). -/
def updateVehiclePosition (M : JsMath) (buildings : List Building)
    (vehicles : List Vehicle) (selfIdx : ℕ) (v : Vehicle) (rs : ℕ → ℚ)
    (ri fuel : ℕ) : Option (Vehicle × ℕ) :=
  if v.route.points.length = 0 then some (v, ri)
  else
    let v1 : Vehicle := { v with route := vehicleRouteAdvance M v }
    let v2 : Vehicle := { v1 with rotation := vehicleSteer M v1 }
    let speedMultiplier := vehicleSpeedMultiplier M v2 (vehicleNearest M vehicles selfIdx v2)
    let finalSpeed := v2.speed * speedMultiplier
    let v3 : Vehicle := { v2 with velocity := ⟨M.cos v2.rotation * finalSpeed,
      M.sin v2.rotation * finalSpeed⟩ }
    let newX := v3.position.x + v3.velocity.x
    let newY := v3.position.y + v3.velocity.y
    if decide (newX ≥ STREET_WIDTH) && decide (newX ≤ CITY_WIDTH - STREET_WIDTH) &&
        decide (newY ≥ STREET_WIDTH) && decide (newY ≤ CITY_HEIGHT - STREET_WIDTH) &&
        isOnStreet newX newY v3.size buildings then
      some ({ v3 with position := ⟨newX, newY⟩ }, ri)
    else
      (clientGenerateVehicleRoute M v3.position buildings (fun j => rs (ri + j))
          fuel).map
        fun pr => ({ v3 with route := pr.1 }, ri + pr.2)

/-! ### The game-loop tick (lines 1012–1459 of `pizza-delivery-game.tsx`),
phase by phase in the order of the source's `=====` section banners. -/

/-- The first end-of-match check (lines 1037–1043, right after the timer
decrement): time-out, or stalemate (no throws remaining and no active
projectile).  Both terminate the tick through the same early `return`. -/
def endCheck1 (s : GameState) : Bool :=
  decide (s.timeLeft ≤ 0) ||
  (decide (s.pizzasRemaining ≤ 0) && decide ((s.pizzas.filter (·.active)).length = 0))

/-- `===== ACTUALIZAR FRENADO =====`: brake-cooldown decrement, turn
detection, and the turn-friction speed ramp. -/
def brakeTurnPhase (keys : Keys) (s : GameState) : GameState :=
  let s := if s.brakeCooldown > 0 then { s with brakeCooldown := s.brakeCooldown - 1 } else s
  let isTurning := keys.a || keys.d
  let s :=
    if !s.isTurning && isTurning then
      { s with turnFrictionPhase := TurnPhase.decelerating, turnFrictionTimer := 15 }
    else if s.isTurning && !isTurning then
      { s with turnFrictionPhase := TurnPhase.accelerating, turnFrictionTimer := 30 }
    else s
  let s := { s with isTurning := isTurning }
  match s.turnFrictionPhase with
  | TurnPhase.decelerating =>
    let s := { s with
      currentSpeed := max PLAYER_SPEED_MIN (s.currentSpeed - PLAYER_SPEED_NORMAL * (4/10) / 15),
      turnFrictionTimer := s.turnFrictionTimer - 1 }
    if s.turnFrictionTimer ≤ 0 then
      { s with turnFrictionPhase := TurnPhase.accelerating, turnFrictionTimer := 30 }
    else s
  | TurnPhase.accelerating =>
    let s := { s with
      currentSpeed := min PLAYER_SPEED_MAX (s.currentSpeed + PLAYER_SPEED_NORMAL * (4/10) / 30),
      turnFrictionTimer := s.turnFrictionTimer - 1 }
    if s.turnFrictionTimer ≤ 0 then { s with turnFrictionPhase := TurnPhase.idle }
    else s
  | TurnPhase.idle => s

/-- Target-max-speed selection (Shift / Ctrl / default) followed by the
progressive approach of `currentSpeed` toward `maxSpeed`
(`±(gap)/SPEED_TRANSITION_FRAMES`) and the hard top clamp. -/
def speedEnvelopePhase (keys : Keys) (s : GameState) : GameState :=
  let s := { s with targetMaxSpeed :=
    if keys.shift then PLAYER_SPEED_MAX
    else if keys.control then PLAYER_SPEED_MIN
    else PLAYER_SPEED_NORMAL }
  let s :=
    if s.currentSpeed < s.maxSpeed then
      { s with currentSpeed := (min s.maxSpeed
          (s.currentSpeed + (s.maxSpeed - s.currentSpeed) / SPEED_TRANSITION_FRAMES)) }
    else if s.currentSpeed > s.maxSpeed then
      { s with currentSpeed := (max s.maxSpeed
          (s.currentSpeed - (s.currentSpeed - s.maxSpeed) / SPEED_TRANSITION_FRAMES)) }
    else s
  if s.currentSpeed > s.maxSpeed then { s with currentSpeed := s.maxSpeed } else s

/-- `===== ACTUALIZAR CARGA DE POTENCIA =====`: the charge magnitude grows by
`0.3` per tick while charging and unstunned, wrapping to `0` past the cap. -/
def chargePhase (s : GameState) : GameState :=
  if s.isCharging && decide (s.stunned ≤ 0) then
    let p := s.chargePower + 3/10
    { s with chargePower := if p > MAX_CHARGE_POWER then 0 else p }
  else s

/-- The spin-in-place block (shared verbatim between the movement phase and
the tail of the tick, lines 1145–1160 and 1441–1457): rotate by the decaying
angular speed, zero the velocity, and on spin-timer expiry count down a spin;
when the last spin ends, clear the stun and zero `currentSpeed`. -/
def spinStep (s : GameState) : GameState :=
  let s := { s with
    player := { s.player with
      rotation := s.player.rotation + s.spinAngularSpeed,
      velocity := ⟨0, 0⟩ },
    spinAngularSpeed := s.spinAngularSpeed * (97/100),
    spinTimer := s.spinTimer - 1 }
  if s.spinTimer ≤ 0 then
    let s := { s with spinCount := s.spinCount - 1, spinTimer := 60 }
    if s.spinCount = 0 then
      { s with stunned := 0, spinAngularSpeed := 0, currentSpeed := 0 }
    else s
  else s

/-- `===== MOVIMIENTO DEL JUGADOR =====`: normal steering and always-forward
motion; spinning in place; or the legacy stunned drift with gradual
rotation recovery. -/
def movementPhase (M : JsMath) (keys : Keys) (s : GameState) : GameState :=
  if decide (s.stunned ≤ 0) && decide (s.spinCount = 0) then
    let s := { s with playerPreviousRotation := s.player.rotation }
    let rotationChange :=
      (if keys.a then -PLAYER_TURN_SPEED else 0) +
      (if keys.d then PLAYER_TURN_SPEED else 0) +
      (if keys.w then 0 else 0) +
      (if keys.sKey then M.pi * (2/100) else 0)
    let rot := s.player.rotation + rotationChange
    { s with player := { s.player with
        rotation := rot,
        velocity := ⟨M.cos rot * s.currentSpeed, M.sin rot * s.currentSpeed⟩ } }
  else if s.spinCount > 0 then
    spinStep s
  else
    let s := { s with player := { s.player with
      rotation := s.player.rotation + 3/10,
      velocity := ⟨s.player.velocity.x * (95/100), s.player.velocity.y * (95/100)⟩ } }
    if s.stunned < 30 then
      let angleDiff := jsNormalizeAngle M.pi (s.playerPreviousRotation - s.player.rotation)
      { s with player := { s.player with
          rotation := s.player.rotation + angleDiff * RECOVERY_SPEED } }
    else s

/-- `===== VERIFICAR COLISIONES DEL JUGADOR =====` plus the world-bounds
clamp: move to the integrated position when on-street, otherwise (if not
already stunned) enter the stun/spin state with `currentSpeed = 0`. -/
def playerCollisionPhase (s : GameState) : GameState :=
  let newPlayerX := s.player.position.x + s.player.velocity.x
  let newPlayerY := s.player.position.y + s.player.velocity.y
  let s :=
    if isOnStreet newPlayerX newPlayerY s.player.size s.buildings then
      { s with player := { s.player with position := ⟨newPlayerX, newPlayerY⟩ } }
    else if s.stunned ≤ 0 then
      { s with
        stunned := STUN_DURATION
        isCharging := false
        chargePower := 0
        spinCount := 3
        spinTimer := 60
        spinAngularSpeed := 35/100
        currentSpeed := 0 }
    else s
  { s with player := { s.player with position :=
      ⟨max 20 (min (CITY_WIDTH - 20) s.player.position.x),
       max 20 (min (CITY_HEIGHT - 20) s.player.position.y)⟩ } }

/-- `===== ACTUALIZAR VEHÍCULOS =====`: sequential in-place update of each
vehicle (later vehicles see earlier updates) followed by the player–vehicle
proximity stun.  `none` when an in-loop route regeneration diverges. -/
def vehiclesPhase (M : JsMath) (rs : ℕ → ℚ) (fuel : ℕ) (s : GameState)
    (ri : ℕ) : Option (GameState × ℕ) :=
  (List.range s.vehicles.length).foldl
    (fun acc idx =>
      match acc with
      | none => none
      | some (s, ri) =>
        match s.vehicles[idx]? with
        | none => some (s, ri)
        | some v =>
          match updateVehiclePosition M s.buildings s.vehicles idx v rs ri fuel with
          | none => none
          | some (v', ri') =>
            let s := { s with vehicles := s.vehicles.set idx v' }
            let dxPlayer := v'.position.x - s.player.position.x
            let dyPlayer := v'.position.y - s.player.position.y
            let distancePlayer := M.sqrt (dxPlayer * dxPlayer + dyPlayer * dyPlayer)
            if distancePlayer < 25 ∧ s.stunned ≤ 0 then
              some ({ s with
                playerPreviousRotation := s.player.rotation
                stunned := STUN_DURATION
                isCharging := false
                chargePower := 0 }, ri')
            else some (s, ri'))
    (some (s, ri))

/-- `checkPizzaRectCollision` (AABB-vs-circle via closest-point clamp,
pizza radius 8). -/
def checkPizzaRectCollision (pizza : Pizza) (x y width height : ℚ) : Bool :=
  let closestX := max x (min pizza.position.x (x + width))
  let closestY := max y (min pizza.position.y (y + height))
  let distanceX := pizza.position.x - closestX
  let distanceY := pizza.position.y - closestY
  distanceX * distanceX + distanceY * distanceY < 64

/-- `calculatePizzaBounce`: reflect the velocity about the normalized normal
(`v' = v − 2(v·n̂)n̂`) and dampen by `0.7`; zero-length normals are ignored. -/
def calculatePizzaBounce (M : JsMath) (pizza : Pizza) (normalX normalY : ℚ) :
    Pizza :=
  let length := M.sqrt (normalX * normalX + normalY * normalY)
  if length = 0 then pizza
  else
    let nx := normalX / length
    let ny := normalY / length
    let dotProduct := pizza.velocity.x * nx + pizza.velocity.y * ny
    { pizza with velocity :=
        ⟨(pizza.velocity.x - 2 * dotProduct * nx) * (7/10),
         (pizza.velocity.y - 2 * dotProduct * ny) * (7/10)⟩ }

/-- JS object-map assignment for the client leaderboard. -/
def updateLeaderboard (lb : List (String × String × ℚ)) (id name : String)
    (score : ℚ) : List (String × String × ℚ) :=
  if lb.any (·.1 = id) then
    lb.map fun e => if e.1 = id then (id, name, score) else e
  else lb ++ [(id, name, score)]

/-- The bookkeeping shared by both client delivery branches: add `points` to
the score, update the leaderboard when a socket is connected, refund one pizza
(capped at `TOTAL_PIZZAS`), bump the delivery counter, deactivate the current
point and atomically activate the next one when it exists. -/
def clientDeliverySuccess (sock : Bool) (sid : String) (s : GameState)
    (cp : DeliveryPoint) (points : ℤ) : GameState :=
  let s := { s with score := s.score + points }
  let s :=
    if sock then
      { s with leaderboard := updateLeaderboard s.leaderboard sid s.player.name s.score }
    else s
  let s := { s with
    pizzasRemaining := min TOTAL_PIZZAS (s.pizzasRemaining + 1)
    deliveriesCompleted := s.deliveriesCompleted + 1
    deliveryPoints := s.deliveryPoints.set s.currentDelivery { cp with active := false } }
  if s.currentDelivery < s.deliveryPoints.length - 1 then
    let nd := s.currentDelivery + 1
    { s with
      currentDelivery := nd
      deliveryPoints := s.deliveryPoints.set nd
        { s.deliveryPoints.getD nd ⟨⟨0, 0⟩, false, 0⟩ with active := true } }
  else s

/-- The stop-resolution of the client pizza filter (`speed < 0.35` while
sliding): deliver when within `radius + PIZZA_RADIUS` of the active current
point (score `⌊accuracy·150⌋ + 50`), otherwise fail; either way the pizza
leaves the list. -/
def clientPizzaResolve (M : JsMath) (sock : Bool) (sid : String)
    (s : GameState) (pz : Pizza) : GameState × Option Pizza :=
  match s.deliveryPoints[s.currentDelivery]? with
  | some cp =>
    if cp.active then
      let dx := pz.position.x - cp.position.x
      let dy := pz.position.y - cp.position.y
      let distance := M.sqrt (dx * dx + dy * dy)
      if distance ≤ cp.radius + 8 then
        let effectiveDistance := max 0 (distance - 8)
        let accuracy := 1 - effectiveDistance / cp.radius
        let points := jsFloor (accuracy * 150) + 50
        (clientDeliverySuccess sock sid s cp points, none)
      else (s, none)
    else (s, none)
  | none => (s, none)

/-- The client's collision handling for one pizza: the building loop breaks
on the first `"building"`-typed hit and sets `hasCollided`; the vehicle loop
only runs when `hasCollided` is still false, so at most one bounce is applied
per tick. -/
def clientBouncePhase (M : JsMath) (buildings : List Building)
    (vehicles : List Vehicle) (pz : Pizza) : Pizza :=
  let bhit : Option Building := buildings.find? fun b =>
    decide (b.type = BuildingType.building) &&
    checkPizzaRectCollision pz b.x b.y b.width b.height
  let pz : Pizza :=
    match bhit with
    | some b => calculatePizzaBounce M pz (pz.position.x - (b.x + b.width / 2))
        (pz.position.y - (b.y + b.height / 2))
    | none => pz
  if bhit.isSome then pz
  else
    match vehicles.find? (fun v =>
        decide (M.sqrt ((pz.position.x - v.position.x) * (pz.position.x - v.position.x) +
          (pz.position.y - v.position.y) * (pz.position.y - v.position.y)) <
        v.size.x / 2 + 8)) with
    | some v => calculatePizzaBounce M pz (pz.position.x - v.position.x)
        (pz.position.y - v.position.y)
    | none => pz

/-- Friction, the bounce phase, stop-resolution and out-of-bounds cull (with
the −30 penalty for a still-sliding pizza) of the client pizza filter. -/
def clientPizzaSlide (M : JsMath) (sock : Bool) (sid : String)
    (s : GameState) (pz : Pizza) : GameState × Option Pizza :=
  let pz : Pizza := { pz with velocity :=
    ⟨pz.velocity.x * (98/100), pz.velocity.y * (98/100)⟩ }
  let pz : Pizza := clientBouncePhase M s.buildings s.vehicles pz
  let speed := M.sqrt (pz.velocity.x * pz.velocity.x + pz.velocity.y * pz.velocity.y)
  if decide (speed < 35/100) && pz.sliding then
    clientPizzaResolve M sock sid s { pz with sliding := false }
  else if decide (pz.position.x < 0) || decide (pz.position.x > CITY_WIDTH) ||
      decide (pz.position.y < 0) || decide (pz.position.y > CITY_HEIGHT) then
    ((if pz.sliding then { s with score := max 0 (s.score - 30) } else s, none) :
      GameState × Option Pizza)
  else (s, some pz)

/-- One pizza's pass through the client filter (`===== ACTUALIZAR PIZZAS
=====`): inactive pizzas drop out; the position advances; touching the active
target's circle delivers immediately (base 100, accuracy bonus up to 100,
speed bonus up to 50); otherwise the slide/bounce/stop path runs. -/
def clientPizzaStep (M : JsMath) (sock : Bool) (sid : String)
    (s : GameState) (pz : Pizza) : GameState × Option Pizza :=
  if !pz.active then (s, none)
  else
    let pz := { pz with position :=
      ⟨pz.position.x + pz.velocity.x, pz.position.y + pz.velocity.y⟩ }
    match s.deliveryPoints[s.currentDelivery]? with
    | some cp =>
      if cp.active then
        let dx := pz.position.x - cp.position.x
        let dy := pz.position.y - cp.position.y
        let distance := M.sqrt (dx * dx + dy * dy)
        if distance ≤ cp.radius + 8 then
          let effectiveDistance := max 0 (distance - 8)
          let accuracy := max 0 (min 1 (1 - effectiveDistance / cp.radius))
          let speedMag := M.sqrt (pz.velocity.x * pz.velocity.x +
            pz.velocity.y * pz.velocity.y)
          let points := 100 + jsFloor (accuracy * 100) +
            jsFloor (min 50 (speedMag * 10))
          (clientDeliverySuccess sock sid s cp points, none)
        else clientPizzaSlide M sock sid s pz
      else clientPizzaSlide M sock sid s pz
    | none => clientPizzaSlide M sock sid s pz

/-- The whole pizza filter: fold over the list threading the game state,
keeping the surviving pizzas. -/
def pizzasPhase (M : JsMath) (sock : Bool) (sid : String) (s : GameState) :
    GameState :=
  let r := s.pizzas.foldl
    (fun (acc : GameState × List Pizza) pz =>
      let t := clientPizzaStep M sock sid acc.1 pz
      (t.1, acc.2 ++ t.2.toList))
    (s, [])
  { r.1 with pizzas := r.2 }

/-- Progressive post-collision speed recovery (lines 1433–1439). -/
def recoveryPhase (s : GameState) : GameState :=
  if s.collisionRecoveryTimer > 0 then
    { s with
      collisionRecoveryTimer := s.collisionRecoveryTimer - 1
      currentSpeed := min PLAYER_SPEED_NORMAL (s.currentSpeed + PLAYER_SPEED_NORMAL / 30) }
  else s

/-- The duplicated spin block at the tail of the tick (lines 1441–1457). -/
def tailSpinPhase (s : GameState) : GameState :=
  if s.spinCount > 0 then spinStep s else s

/-- One tick of the client game loop (lines 1012–1459), in source order:
timer decrement and network send; time-out/stalemate early return; brake and
turn friction; speed envelope; victory early return (with the
`⌊timeLeft·10⌋` bonus); charge; stun countdown; movement; player collision and
bounds clamp; vehicles; pizzas; recovery; tail spin.  `none` when a vehicle
route regeneration inside the tick diverges. -/
def clientTick (M : JsMath) (keys : Keys) (sock : Bool) (sid : String)
    (rs : ℕ → ℚ) (fuel : ℕ) (s : GameState) : Option GameState :=
  let s := { s with timeLeft := s.timeLeft - 1/60 }
  if endCheck1 s then some { s with gameOver := true }
  else
    let s := brakeTurnPhase keys s
    let s := speedEnvelopePhase keys s
    if REQUIRED_DELIVERIES ≤ s.deliveriesCompleted then
      some { s with gameOver := true, score := s.score + (jsFloor (s.timeLeft * 10) : ℚ) }
    else
      let s := chargePhase s
      let s := if s.stunned > 0 then { s with stunned := s.stunned - 1 } else s
      let s := movementPhase M keys s
      let s := playerCollisionPhase s
      match vehiclesPhase M rs fuel s 0 with
      | none => none
      | some (s, _) =>
        let s := pizzasPhase M sock sid s
        let s := recoveryPhase s
        some (tailSpinPhase s)

/-- The space-bar release branch of `handleKeyUp` (lines 853–882): spawn one
active sliding pizza along the heading scaled by the released charge and
consume one throw — but only when charging, unstunned and with throws left;
otherwise only the charging state resets. -/
def handleSpaceRelease (M : JsMath) (s : GameState) : GameState :=
  if s.isCharging ∧ s.stunned ≤ 0 ∧ s.pizzasRemaining > 0 then
    let normalizedX := M.cos s.player.rotation
    let normalizedY := M.sin s.player.rotation
    let power := s.chargePower
    let newPizza : Pizza :=
      { position := s.player.position
        velocity := ⟨normalizedX * power, normalizedY * power⟩
        active := true
        delivered := false
        sliding := true
        playerId := none }
    { s with
      pizzas := s.pizzas ++ [newPizza]
      isCharging := false
      chargePower := 0
      pizzasRemaining := s.pizzasRemaining - 1 }
  else { s with isCharging := false, chargePower := 0 }

/-- The Shift branch of `handleKeyDown`: raise `maxSpeed` one step, capped at
`SPEED_MAX`. -/
def handleShiftDown (s : GameState) : GameState :=
  { s with
    isBraking := true
    brakeCooldown := 600
    maxSpeed := min SPEED_MAX (s.maxSpeed + SPEED_STEP) }

/-- The Ctrl branch of `handleKeyDown`: lower `maxSpeed` one step, floored
at `SPEED_MIN`. -/
def handleControlDown (s : GameState) : GameState :=
  { s with maxSpeed := max SPEED_MIN (s.maxSpeed - SPEED_STEP) }

end Client

/-! ## Concrete fixtures (states used by the closed-form evaluations) -/

/-- No key held down. -/
def noKeys : Client.Keys := ⟨false, false, false, false, false, false⟩

/-- A constant random stream. -/
def zeroRand : ℕ → ℚ := fun _ => 0

/-- A quiescent mid-match client state: stationary heading, uncharged,
unstunned, nothing in flight, empty world. -/
def baseClientState : Client.GameState where
  player := ⟨⟨600, 300⟩, ⟨0, 0⟩, 0, ⟨30, 30⟩, "p"⟩
  pizzas := []
  deliveryPoints := []
  vehicles := []
  buildings := []
  currentDelivery := 0
  score := 0
  timeLeft := 100
  gameStarted := true
  gameOver := false
  isCharging := false
  chargePower := 0
  stunned := 0
  mousePos := ⟨0, 0⟩
  pizzasRemaining := 15
  deliveriesCompleted := 0
  playerPreviousRotation := 0
  isBraking := false
  brakeCooldown := 0
  currentSpeed := 7/10
  isTurning := false
  turnFrictionPhase := Client.TurnPhase.idle
  turnFrictionTimer := 0
  collisionRecoveryTimer := 0
  speedLevel := Client.SpeedLevel.normal
  targetSpeed := 7/10
  spinTimer := 0
  spinCount := 0
  targetMaxSpeed := 7/10
  spinAngularSpeed := 0
  maxSpeed := 7/10
  leaderboard := []

/-- The same state with every throw spent and the delivery quota met: the
input on which the order of the end-of-match checks becomes observable. -/
def c1CexState : Client.GameState :=
  { baseClientState with pizzasRemaining := 0, deliveriesCompleted := 10 }

/-- A started, non-over server room. -/
def c1ServerState : Server.NetworkGameState :=
  { Server.initialGameState with gameStarted := true }

/-- A state in the final frame of a collision spin: one spin left with one
frame on its timer, still stunned, cruising at the full envelope speed. -/
def c2CexState : Client.GameState :=
  { baseClientState with
      stunned := 5
      spinCount := 1
      spinTimer := 1
      spinAngularSpeed := 35/100 }

/-- `c2CexState` after the tick's timer decrement. -/
def c2S1 : Client.GameState :=
  { c2CexState with timeLeft := c2CexState.timeLeft - 1/60 }

/-- The quiescent state with the clock run out. -/
def c2WitStart : Client.GameState := { baseClientState with timeLeft := 0 }

/-- The state the tick returns from `c2WitStart` (time-out branch). -/
def c2WitState : Client.GameState :=
  { c2WitStart with timeLeft := c2WitStart.timeLeft - 1/60, gameOver := true }

/-! ## Support lemmas on the player association list -/

namespace Server

theorem find?_putPlayer (ps : List (String × NetworkPlayer)) (id : String)
    (p : NetworkPlayer) :
    (putPlayer ps id p).find? (·.1 = id) = some (id, p) := by
  unfold putPlayer
  split
  · rename_i h
    induction ps with
    | nil => simp at h
    | cons q t ih =>
      by_cases hq : q.1 = id
      · simp [hq]
      · simp only [List.any_cons, Bool.or_eq_true, decide_eq_true_eq, hq,
          false_or] at h
        simp only [List.map_cons, hq, if_false]
        rw [List.find?_cons_of_neg _ (by simpa using hq)]
        exact ih (by simpa using h)
  · rename_i h
    induction ps with
    | nil => simp [List.find?]
    | cons q t ih =>
      simp only [List.any_cons, Bool.or_eq_true, decide_eq_true_eq, not_or] at h
      rw [List.cons_append, List.find?_cons_of_neg _ (by simpa using h.1)]
      exact ih (by simpa using h.2)

theorem getPlayer_putPlayer (s : NetworkGameState)
    (ps : List (String × NetworkPlayer)) (id : String) (p : NetworkPlayer) :
    getPlayer { s with players := putPlayer ps id p } id = some p := by
  unfold getPlayer
  rw [find?_putPlayer]
  rfl

/-- `putPlayer` touches only the entry with the given key: every other entry
of the result is an entry of the input. -/
theorem mem_putPlayer (ps : List (String × NetworkPlayer)) (id : String)
    (p : NetworkPlayer) (q : String × NetworkPlayer)
    (hq : q ∈ putPlayer ps id p) : q = (id, p) ∨ q ∈ ps := by
  unfold putPlayer at hq
  split at hq
  · obtain ⟨r, hr, hrq⟩ := List.mem_map.mp hq
    by_cases h : r.1 = id
    · simp only [h, if_pos] at hrq
      exact Or.inl hrq.symm
    · simp only [h, if_neg, if_false] at hrq
      exact Or.inr (hrq ▸ hr)
  · rcases List.mem_append.mp hq with h | h
    · exact Or.inr h
    · simp at h
      exact Or.inl (by simp [h])

end Server

/-! ## C7: `isOnStreet` boundary semantics -/

/-- C7 (counterexample).  The claim reads "`isOnStreet … returns false if and
only if the query axis-aligned box … strictly overlaps some obstacle
rectangle".  A rectangle tagged `"decoration"` refutes the right-to-left
direction: the query box centred at `(50, 50)` with size `10 × 10` strictly
overlaps the obstacle rectangle `(0, 0)–(100, 100)`, yet `isOnStreet` returns
`true` because the `building.type === "building"` guard skips it. -/
theorem isOnStreet_decoration_cex :
    Generators.isOnStreet 50 50 ⟨10, 10⟩
      [⟨0, 0, 100, 100, BuildingType.decoration, 0⟩] = true ∧
    ((50 : ℚ) - 10 / 2 < 0 + 100 ∧ (50 : ℚ) + 10 / 2 > 0 ∧
     (50 : ℚ) - 10 / 2 < 0 + 100 ∧ (50 : ℚ) + 10 / 2 > 0) := by
  refine ⟨?_, by norm_num⟩
  rfl

/-- C7 (amended).  For every query point, query size and obstacle list,
`isOnStreet` returns `false` iff the query box, inflated by half the query
size, strictly overlaps some obstacle rectangle *of type `"building"`*
(decoration rectangles are skipped); all four comparisons are strict, so a
box exactly touching an edge counts as non-colliding. -/
theorem isOnStreet_false_iff (x y : ℚ) (size : Vector2)
    (buildings : List Building) :
    Generators.isOnStreet x y size buildings = false ↔
    ∃ b ∈ buildings, b.type = BuildingType.building ∧
      x - size.x / 2 < b.x + b.width ∧ x + size.x / 2 > b.x ∧
      y - size.y / 2 < b.y + b.height ∧ y + size.y / 2 > b.y := by
  unfold Generators.isOnStreet
  simp [List.all_eq_false, and_assoc]

/-! ## C4: what the servers do with client-supplied positions -/

/-- `find?` commutes with a map that preserves the key. -/
theorem find?_map_fst {α : Type} (ps : List (String × α))
    (f : String × α → String × α) (hf : ∀ q, (f q).1 = q.1) (sid : String) :
    (ps.map f).find? (·.1 = sid) = (ps.find? (·.1 = sid)).map f := by
  induction ps with
  | nil => rfl
  | cons q t ih =>
    by_cases h : q.1 = sid
    · rw [List.map_cons, List.find?_cons_of_pos _ (by simp [hf, h]),
        List.find?_cons_of_pos _ (by simp [h])]
      rfl
    · rw [List.map_cons, List.find?_cons_of_neg _ (by simp [hf, h]),
        List.find?_cons_of_neg _ (by simp [h]), ih]

/-- C4 (counterexample).  The claim says every move/update intent is stored
with the position clamped to the world rectangle.  In the networked
`PizzaGameServer`, `handlePlayerUpdate` stores the client position verbatim:
after an update reporting `(1000000, 1000000)` the stored position is
`(1000000, 1000000)`, far outside the `2400 × 1600` world. -/
theorem handlePlayerUpdate_unclamped_cex :
    (Server.getPlayer
      (Server.handlePlayerUpdate
        (Server.handlePlayerJoin Server.initialGameState "p1" 0 0) "p1"
        ⟨"p1", ⟨1000000, 1000000⟩, 0, ⟨0, 0⟩, false, 0⟩) "p1").map
      (fun p => p.position) = some ⟨1000000, 1000000⟩ ∧
    Server.CITY_WIDTH < 1000000 ∧ Server.CITY_HEIGHT < 1000000 := by
  refine ⟨rfl, by norm_num [Server.CITY_WIDTH], by norm_num [Server.CITY_HEIGHT]⟩

/-- C4 (amended).  Neither server rejects a move/update intent from a
connected client.  The prototype server's `move` handler stores the position
clamped into the world rectangle
(`[WORLD_MIN, WORLD_MAX − PLAYER_SIZE] ⊆ [WORLD_MIN, WORLD_MAX]` per axis);
the networked `PizzaGameServer.handlePlayerUpdate` stores the client-supplied
position, rotation, velocity and charge state verbatim, with no clamping. -/
theorem move_clamps_playerUpdate_verbatim :
    (∀ (ps : List (String × SimpleServer.Player)) (sid : String) (x y : ℚ)
        (p : String × SimpleServer.Player), ps.find? (·.1 = sid) = some p →
      (SimpleServer.moveHandler ps sid x y).find? (·.1 = sid) =
        some (p.1, { p.2 with
          x := max SimpleServer.WORLD_MIN_X
            (min x (SimpleServer.WORLD_MAX_X - SimpleServer.PLAYER_SIZE))
          y := max SimpleServer.WORLD_MIN_Y
            (min y (SimpleServer.WORLD_MAX_Y - SimpleServer.PLAYER_SIZE)) }) ∧
      (SimpleServer.WORLD_MIN_X ≤ max SimpleServer.WORLD_MIN_X
          (min x (SimpleServer.WORLD_MAX_X - SimpleServer.PLAYER_SIZE)) ∧
        max SimpleServer.WORLD_MIN_X
          (min x (SimpleServer.WORLD_MAX_X - SimpleServer.PLAYER_SIZE)) ≤
          SimpleServer.WORLD_MAX_X) ∧
      (SimpleServer.WORLD_MIN_Y ≤ max SimpleServer.WORLD_MIN_Y
          (min y (SimpleServer.WORLD_MAX_Y - SimpleServer.PLAYER_SIZE)) ∧
        max SimpleServer.WORLD_MIN_Y
          (min y (SimpleServer.WORLD_MAX_Y - SimpleServer.PLAYER_SIZE)) ≤
          SimpleServer.WORLD_MAX_Y)) ∧
    (∀ (s : Server.NetworkGameState) (sid : String)
        (data : Server.PlayerUpdateEvent) (p : Server.NetworkPlayer),
      Server.getPlayer s sid = some p →
      Server.getPlayer (Server.handlePlayerUpdate s sid data) sid =
        some { p with
          position := data.position
          rotation := data.rotation
          velocity := data.velocity
          isCharging := data.isCharging
          chargePower := data.chargePower }) := by
  constructor
  · intro ps sid x y p hfind
    have hp1 : p.1 = sid := by
      have := List.find?_some hfind
      simpa using this
    refine ⟨?_, ?_, ?_⟩
    · unfold SimpleServer.moveHandler
      rw [hfind]
      show List.find? _ (List.map (SimpleServer.moveUpdateEntry sid x y) ps) = _
      rw [find?_map_fst ps (SimpleServer.moveUpdateEntry sid x y)
        (SimpleServer.moveUpdateEntry_fst sid x y) sid, hfind]
      simp only [Option.map_some', SimpleServer.moveUpdateEntry, hp1, if_pos]
    · constructor
      · exact le_max_left _ _
      · apply max_le
        · norm_num [SimpleServer.WORLD_MIN_X, SimpleServer.WORLD_MAX_X]
        · calc min x (SimpleServer.WORLD_MAX_X - SimpleServer.PLAYER_SIZE) ≤
              SimpleServer.WORLD_MAX_X - SimpleServer.PLAYER_SIZE := min_le_right _ _
            _ ≤ SimpleServer.WORLD_MAX_X := by
              norm_num [SimpleServer.WORLD_MAX_X, SimpleServer.PLAYER_SIZE]
    · constructor
      · exact le_max_left _ _
      · apply max_le
        · norm_num [SimpleServer.WORLD_MIN_Y, SimpleServer.WORLD_MAX_Y]
        · calc min y (SimpleServer.WORLD_MAX_Y - SimpleServer.PLAYER_SIZE) ≤
              SimpleServer.WORLD_MAX_Y - SimpleServer.PLAYER_SIZE := min_le_right _ _
            _ ≤ SimpleServer.WORLD_MAX_Y := by
              norm_num [SimpleServer.WORLD_MAX_Y, SimpleServer.PLAYER_SIZE]
  · intro s sid data p hp
    unfold Server.handlePlayerUpdate
    rw [hp]
    exact Server.getPlayer_putPlayer ..

/-- C4 (witness): the amended theorem applied at a one-player list and a
freshly joined networked state, with the out-of-range input `(9999, -9999)`. -/
theorem move_clamps_playerUpdate_verbatim_witness :
    (SimpleServer.moveHandler [("a", ⟨"a", 0, 0, 0⟩)] "a" 9999 (-9999)).find?
        (·.1 = "a") = some ("a", ⟨"a", 475, -500, 0⟩) ∧
    Server.getPlayer
        (Server.handlePlayerUpdate
          (Server.handlePlayerJoin Server.initialGameState "w" 0 0) "w"
          ⟨"w", ⟨-3, 7⟩, 1, ⟨2, 2⟩, true, 4⟩) "w" ≠ none := by
  constructor
  · have h := (move_clamps_playerUpdate_verbatim.1 [("a", ⟨"a", 0, 0, 0⟩)] "a"
      9999 (-9999) ("a", ⟨"a", 0, 0, 0⟩) (by rfl)).1
    rw [h]
    norm_num [SimpleServer.WORLD_MIN_X, SimpleServer.WORLD_MAX_X,
      SimpleServer.WORLD_MIN_Y, SimpleServer.WORLD_MAX_Y, SimpleServer.PLAYER_SIZE]
  · have h := move_clamps_playerUpdate_verbatim.2
      (Server.handlePlayerJoin Server.initialGameState "w" 0 0) "w"
      ⟨"w", ⟨-3, 7⟩, 1, ⟨2, 2⟩, true, 4⟩ _ (by rfl)
    rw [h]
    simp

/-! ## C5: throw-intent guards -/

/-- A server state with one player whose `stunned` counter is positive and
who still has throws left, for exercising `handleThrowPizza`. -/
def stunnedThrowState : Server.NetworkGameState :=
  { Server.initialGameState with
    players := [("p1",
      { id := "p1", name := "Player p1", position := ⟨100, 100⟩
        velocity := ⟨0, 0⟩, rotation := 0, size := ⟨20, 12⟩
        isCharging := false, chargePower := 0, stunned := 5
        pizzasRemaining := 3, deliveriesCompleted := 0, isBraking := false
        currentSpeed := 2, maxSpeed := 2, score := 0 })] }

/-- C5 (counterexample).  The claim says a throw intent from a player whose
stunned counter is positive leaves the state unchanged.  The networked
server's `handleThrowPizza` has no stunned guard: with `stunned = 5` and three
throws left it still creates one projectile and decrements the count. -/
theorem handleThrowPizza_ignores_stun_cex :
    (Server.getPlayer stunnedThrowState "p1").map (fun p => p.stunned) = some 5 ∧
    (Server.handleThrowPizza stunnedThrowState "p1"
      ⟨"p1", ⟨100, 100⟩, ⟨1, 0⟩⟩).pizzas.length = 1 ∧
    (Server.getPlayer (Server.handleThrowPizza stunnedThrowState "p1"
      ⟨"p1", ⟨100, 100⟩, ⟨1, 0⟩⟩) "p1").map (fun p => p.pizzasRemaining) =
      some 2 := by
  refine ⟨rfl, rfl, rfl⟩

/-- C5 (amended).  On the networked server only the remaining-throw guard
applies: a throw for an absent player or one with `pizzasRemaining ≤ 0` is a
no-op, and otherwise exactly one new active sliding projectile owned by the
sender is appended and the count drops by exactly one (hence never below
zero) — even when `stunned > 0`.  On the client, a space release is a no-op
on the pizza list and the throw count (only the charging state resets) unless
charging, unstunned and with throws left, in which case exactly one active
sliding pizza is appended and the count drops by one, staying nonnegative. -/
theorem throw_guards :
    (∀ (s : Server.NetworkGameState) (sid : String)
        (data : Server.ThrowPizzaEvent),
      Server.getPlayer s sid = none → Server.handleThrowPizza s sid data = s) ∧
    (∀ (s : Server.NetworkGameState) (sid : String)
        (data : Server.ThrowPizzaEvent) (p : Server.NetworkPlayer),
      Server.getPlayer s sid = some p → p.pizzasRemaining ≤ 0 →
      Server.handleThrowPizza s sid data = s) ∧
    (∀ (s : Server.NetworkGameState) (sid : String)
        (data : Server.ThrowPizzaEvent) (p : Server.NetworkPlayer),
      Server.getPlayer s sid = some p → 0 < p.pizzasRemaining →
      (Server.handleThrowPizza s sid data).pizzas =
        s.pizzas ++ [⟨data.position, data.velocity, true, false, true, some sid⟩] ∧
      Server.getPlayer (Server.handleThrowPizza s sid data) sid =
        some { p with pizzasRemaining := p.pizzasRemaining - 1 } ∧
      0 ≤ p.pizzasRemaining - 1) ∧
    (∀ (M : JsMath) (s : Client.GameState),
      ¬(s.isCharging = true ∧ s.stunned ≤ 0 ∧ 0 < s.pizzasRemaining) →
      (Client.handleSpaceRelease M s).pizzas = s.pizzas ∧
      (Client.handleSpaceRelease M s).pizzasRemaining = s.pizzasRemaining ∧
      (Client.handleSpaceRelease M s).isCharging = false) ∧
    (∀ (M : JsMath) (s : Client.GameState),
      s.isCharging = true → s.stunned ≤ 0 → 0 < s.pizzasRemaining →
      (Client.handleSpaceRelease M s).pizzas.length = s.pizzas.length + 1 ∧
      (Client.handleSpaceRelease M s).pizzasRemaining = s.pizzasRemaining - 1 ∧
      0 ≤ s.pizzasRemaining - 1) := by
  refine ⟨?_, ?_, ?_, ?_, ?_⟩
  · intro s sid data hnone
    unfold Server.handleThrowPizza
    rw [hnone]
  · intro s sid data p hp hle
    unfold Server.handleThrowPizza
    rw [hp]
    simp only [if_pos hle]
  · intro s sid data p hp hpos
    unfold Server.handleThrowPizza
    rw [hp]
    dsimp only
    rw [if_neg (by omega)]
    refine ⟨rfl, ?_, by omega⟩
    show ((Server.putPlayer s.players sid _).find? (·.1 = sid)).map (·.2) = _
    rw [Server.find?_putPlayer]
    rfl
  · intro M s hng
    unfold Client.handleSpaceRelease
    rw [if_neg hng]
    exact ⟨rfl, rfl, rfl⟩
  · intro M s h1 h2 h3
    unfold Client.handleSpaceRelease
    rw [if_pos ⟨h1, h2, h3⟩]
    refine ⟨by simp, rfl, by omega⟩

/-- C5 (witness): the amended theorem applied at concrete states: an empty
room, the stunned-state player after exhausting throws, a throwing player
with 3 throws, and client states on both sides of the guard. -/
theorem throw_guards_witness :
    Server.handleThrowPizza Server.initialGameState "nobody" ⟨"nobody", ⟨0, 0⟩, ⟨0, 0⟩⟩ =
      Server.initialGameState ∧
    (Server.handleThrowPizza stunnedThrowState "p1"
      ⟨"p1", ⟨100, 100⟩, ⟨1, 0⟩⟩).pizzas.length = 1 := by
  constructor
  · exact throw_guards.1 Server.initialGameState "nobody" _ (by rfl)
  · have h := (throw_guards.2.2.1 stunnedThrowState "p1" ⟨"p1", ⟨100, 100⟩, ⟨1, 0⟩⟩
      _ (by rfl) (by norm_num [stunnedThrowState])).1
    rw [h]
    simp [stunnedThrowState, Server.initialGameState]

/-! ## C3: termination of the generation routines -/

/-- A unit step along one of the two axes — the only directions the vehicle
route walk ever uses. -/
def IsAxisDir (d : Vector2) : Prop :=
  d = ⟨1, 0⟩ ∨ d = ⟨-1, 0⟩ ∨ d = ⟨0, 1⟩ ∨ d = ⟨0, -1⟩

theorem routeTurnStep_axis (rs : ℕ → ℚ) (ri : ℕ) (d : Vector2)
    (hd : IsAxisDir d) : IsAxisDir (Generators.routeTurnStep rs ri d).1 := by
  unfold Generators.routeTurnStep
  split
  · split
    · split
      · exact Or.inr (Or.inr (Or.inl rfl))
      · exact Or.inr (Or.inr (Or.inr rfl))
    · split
      · exact Or.inl rfl
      · exact Or.inr (Or.inl rfl)
  · exact hd

theorem axisDir_neg (d : Vector2) (hd : IsAxisDir d) :
    IsAxisDir ⟨-d.x, -d.y⟩ := by
  rcases hd with h | h | h | h <;> subst h <;> simp [IsAxisDir]

/-- From the corner grid intersection `(2400, 1600)` every candidate hop
fails the bounds check — east and south leave the world, west lands at
`y = 1600` (not `< CITY_HEIGHT`), north at `x = 2400` (not `< CITY_WIDTH`) —
regardless of the obstacle list. -/
theorem hopOk_corner_false (buildings : List Building) (d : Vector2)
    (hd : IsAxisDir d) :
    Generators.hopOk buildings
      ⟨2400 + d.x * Generators.BLOCK_SIZE, 1600 + d.y * Generators.BLOCK_SIZE⟩ =
      false := by
  rcases hd with h | h | h | h <;> subst h <;>
    simp [Generators.hopOk, Generators.BLOCK_SIZE, Generators.CITY_WIDTH,
      Generators.CITY_HEIGHT]

/-- The candidate-hop retry loop never finishes from the corner: each
iteration rejects its candidate, reverses the direction and retries with the
same number of points still owed. -/
theorem routeGo_corner_none (buildings : List Building) (rs : ℕ → ℚ) :
    ∀ (fuel ri : ℕ) (d : Vector2) (pts : List Vector2) (r : ℕ),
    IsAxisDir d →
    Generators.generateVehicleRouteGo buildings rs ri ⟨2400, 1600⟩ d pts
      (r + 1) fuel = none := by
  intro fuel
  induction fuel with
  | zero => intro ri d pts r _; rfl
  | succ n ih =>
    intro ri d pts r hd
    have hax := routeTurnStep_axis rs ri d hd
    rw [Generators.generateVehicleRouteGo]
    rw [if_neg (by rw [hopOk_corner_false buildings _ hax]; exact Bool.false_ne_true)]
    exact ih _ _ pts r (axisDir_neg _ hax)

/-- C3 (theorem, code_bug).  `generateVehicleRoute` started at `(2350, 1550)`
snaps to the corner intersection `(2400, 1600)` and then loops forever: for
every fuel bound, every random stream and every obstacle list, the
construction loop is still running when the fuel runs out.  (Delivery-point
generation, by contrast, does stop at its 100-attempt budget — it is total by
construction here.)  `generateVehicles` spawning a vehicle near that corner
therefore hangs the match start, which the spec explicitly forbids. -/
theorem generateVehicleRoute_corner_diverges (buildings : List Building)
    (rs : ℕ → ℚ) (fuel : ℕ) :
    Generators.generateVehicleRoute ⟨2350, 1550⟩ buildings rs fuel = none := by
  unfold Generators.generateVehicleRoute
  have hstart : Generators.findNearestIntersection 2350 1550 =
      (⟨2400, 1600⟩ : Vector2) := by
    unfold Generators.findNearestIntersection Generators.BLOCK_SIZE jsRound
    norm_num
  rw [hstart]
  have hd : IsAxisDir (if rs 0 < 1/2 then (⟨1, 0⟩ : Vector2) else ⟨0, 1⟩) := by
    split
    · exact Or.inl rfl
    · exact Or.inr (Or.inr (Or.inl rfl))
  dsimp only
  rw [show (3 : ℕ) = 2 + 1 from rfl]
  rw [routeGo_corner_none buildings rs fuel 1 _ _ 2 hd]
  rfl

/-! ## C6: exactly one active delivery target -/

/-- The reachable shape of the delivery-point list: the `k`-th point is the
single active one; `k = length` means none is active (all exhausted). -/
def CursorAt (dps : List DeliveryPoint) (k : ℕ) : Prop :=
  ∀ j (h : j < dps.length), (dps.get ⟨j, h⟩).active = decide (j = k)

theorem cursorAt_findIdx_lt (dps : List DeliveryPoint) (k : ℕ)
    (hc : CursorAt dps k) (hk : k < dps.length) :
    dps.findIdx (·.active) = k := by
  rw [List.findIdx_eq hk]
  constructor
  · have := hc k hk
    simp only [List.get_eq_getElem] at this
    simp [this]
  · intro j hji
    have := hc j (Nat.lt_trans hji hk)
    simp only [List.get_eq_getElem] at this
    simp [this, Nat.ne_of_lt hji]

theorem cursorAt_findIdx_ge (dps : List DeliveryPoint) (k : ℕ)
    (hc : CursorAt dps k) (hk : dps.length ≤ k) :
    dps.findIdx (·.active) = dps.length := by
  rw [List.findIdx_eq_length]
  intro a ha
  obtain ⟨⟨j, hj⟩, rfl⟩ := List.mem_iff_get.mp ha
  have hcj := hc j hj
  rw [hcj]
  simp only [decide_eq_false_iff_not]
  omega

/-- The delivery-resolution step: with cursor `k < n` and a pizza inside the
capture radius, `checkPizzaDelivery` deactivates point `k` and activates point
`k + 1` in the same returned list (cursor `k + 1`), keeps the length, marks
the pizza delivered and emits the scoring event. -/
theorem checkPizzaDelivery_fires (M : JsMath) (dps : List DeliveryPoint)
    (pz : Pizza) (k : ℕ) (hc : CursorAt dps k) (hk : k < dps.length)
    (hfire : M.sqrt ((pz.position.x - (dps.get ⟨k, hk⟩).position.x) *
        (pz.position.x - (dps.get ⟨k, hk⟩).position.x) +
      (pz.position.y - (dps.get ⟨k, hk⟩).position.y) *
        (pz.position.y - (dps.get ⟨k, hk⟩).position.y)) ≤
      (dps.get ⟨k, hk⟩).radius) :
    CursorAt (Server.checkPizzaDelivery M dps pz).1 (k + 1) ∧
    (Server.checkPizzaDelivery M dps pz).1.length = dps.length ∧
    (Server.checkPizzaDelivery M dps pz).2.1.delivered = true ∧
    (Server.checkPizzaDelivery M dps pz).2.2 ≠ none := by
  have hidx := cursorAt_findIdx_lt dps k hc hk
  have hget : dps[k]? = some (dps.get ⟨k, hk⟩) := by
    rw [List.getElem?_eq_getElem hk]
    rfl
  unfold Server.checkPizzaDelivery
  rw [hidx]
  dsimp only
  rw [hget]
  dsimp only
  rw [if_pos hfire]
  refine ⟨?_, by simp, rfl, by simp⟩
  intro j hj
  have hj' : j < dps.length := by simpa using hj
  have hcj := hc j hj'
  simp only [List.get_eq_getElem] at hcj ⊢
  rw [List.getElem_mapIdx]
  by_cases h1 : j = k
  · subst h1
    simp
  · by_cases h2 : j = k + 1
    · subst h2
      simp
    · simp only [h1, if_false, h2, hcj]

/-- A no-resolution step leaves the list unchanged: either no point is active
(cursor at the end) or the stopped pizza is outside the capture radius. -/
theorem checkPizzaDelivery_noop (M : JsMath) (dps : List DeliveryPoint)
    (pz : Pizza) (k : ℕ) (hc : CursorAt dps k) (hk : dps.length ≤ k) :
    (Server.checkPizzaDelivery M dps pz).1 = dps := by
  have hidx := cursorAt_findIdx_ge dps k hc hk
  unfold Server.checkPizzaDelivery
  rw [hidx]
  dsimp only
  rw [List.getElem?_eq_none (le_refl _)]

/-- Any `checkPizzaDelivery` step preserves the cursor shape and the length. -/
theorem checkPizzaDelivery_preserves (M : JsMath) (dps : List DeliveryPoint)
    (pz : Pizza) (k : ℕ) (hc : CursorAt dps k) (hk : k ≤ dps.length) :
    ∃ k' ≤ (Server.checkPizzaDelivery M dps pz).1.length,
      CursorAt (Server.checkPizzaDelivery M dps pz).1 k' ∧
      (Server.checkPizzaDelivery M dps pz).1.length = dps.length := by
  rcases Nat.lt_or_ge k dps.length with hlt | hge
  · by_cases hfire : M.sqrt ((pz.position.x - (dps.get ⟨k, hlt⟩).position.x) *
        (pz.position.x - (dps.get ⟨k, hlt⟩).position.x) +
      (pz.position.y - (dps.get ⟨k, hlt⟩).position.y) *
        (pz.position.y - (dps.get ⟨k, hlt⟩).position.y)) ≤
      (dps.get ⟨k, hlt⟩).radius
    · obtain ⟨h1, h2, _⟩ := checkPizzaDelivery_fires M dps pz k hc hlt hfire
      exact ⟨k + 1, by omega, h1, h2⟩
    · have hidx := cursorAt_findIdx_lt dps k hc hlt
      have hget : dps[k]? = some (dps.get ⟨k, hlt⟩) := by
        rw [List.getElem?_eq_getElem hlt]
        rfl
      have : (Server.checkPizzaDelivery M dps pz).1 = dps := by
        unfold Server.checkPizzaDelivery
        rw [hidx]
        dsimp only
        rw [hget]
        dsimp only
        rw [if_neg hfire]
      rw [this]
      exact ⟨k, hk, hc, rfl⟩
  · rw [checkPizzaDelivery_noop M dps pz k hc hge]
    exact ⟨k, hk, hc, rfl⟩

/-- Folding any sequence of delivery resolutions. -/
def deliverySteps (M : JsMath) (dps : List DeliveryPoint)
    (pzs : List Pizza) : List DeliveryPoint :=
  pzs.foldl (fun d p => (Server.checkPizzaDelivery M d p).1) dps

theorem deliverySteps_preserves (M : JsMath) (pzs : List Pizza) :
    ∀ (dps : List DeliveryPoint),
    (∃ k ≤ dps.length, CursorAt dps k) →
    ∃ k ≤ (deliverySteps M dps pzs).length, CursorAt (deliverySteps M dps pzs) k := by
  induction pzs with
  | nil => intro dps h; exact h
  | cons p t ih =>
    intro dps ⟨k, hk, hc⟩
    obtain ⟨k', hk', hc', _⟩ := checkPizzaDelivery_preserves M dps p k hc hk
    exact ih _ ⟨k', hk', hc'⟩

/-- Freshly generated lists have the cursor at `0`: the first accepted point
is pushed with `active = (points.length === 0)`. -/
theorem generateDeliveryPointsGo_cursor (bs : List Building) (rs : ℕ → ℚ) :
    ∀ (fuel ri : ℕ) (pts : List DeliveryPoint), CursorAt pts 0 →
    CursorAt (Generators.generateDeliveryPointsGo bs rs ri pts fuel) 0 := by
  intro fuel
  induction fuel with
  | zero => intro ri pts h; exact h
  | succ n ih =>
    intro ri pts h
    rw [Generators.generateDeliveryPointsGo]
    split
    · dsimp only
      split
      · apply ih
        intro j hj
        rw [List.length_append, List.length_singleton] at hj
        rcases Nat.lt_or_ge j pts.length with hlt | hge
        · rw [List.get_eq_getElem, List.getElem_append_left hlt]
          have := h j hlt
          simpa using this
        · have hj' : j = pts.length := by omega
          subst hj'
          rw [List.get_eq_getElem, List.getElem_append_right (le_refl _)]
          simp
      · exact ih _ _ h
    · exact h

/-- C6 (confirmed).  (1) Starting from a freshly generated delivery list and
applying any sequence of delivery resolutions, there is always a cursor
`k ≤ n` such that point `j` is active iff `j = k`: exactly one point is active
while `k < n` (undelivered targets remain) and none once `k = n` (all
exhausted).  (2) Atomicity: a resolving step deactivates point `k` and
activates point `k + 1` in the same returned list, preserving the length. -/
theorem delivery_exactly_one_active :
    (∀ (bs : List Building) (rs : ℕ → ℚ) (M : JsMath) (pzs : List Pizza),
      ∃ k ≤ (deliverySteps M (Generators.generateDeliveryPoints bs rs) pzs).length,
        CursorAt (deliverySteps M (Generators.generateDeliveryPoints bs rs) pzs) k) ∧
    (∀ (M : JsMath) (dps : List DeliveryPoint) (pz : Pizza) (k : ℕ)
        (hc : CursorAt dps k) (hk : k < dps.length),
      M.sqrt ((pz.position.x - (dps.get ⟨k, hk⟩).position.x) *
          (pz.position.x - (dps.get ⟨k, hk⟩).position.x) +
        (pz.position.y - (dps.get ⟨k, hk⟩).position.y) *
          (pz.position.y - (dps.get ⟨k, hk⟩).position.y)) ≤
        (dps.get ⟨k, hk⟩).radius →
      CursorAt (Server.checkPizzaDelivery M dps pz).1 (k + 1) ∧
      (Server.checkPizzaDelivery M dps pz).1.length = dps.length) := by
  constructor
  · intro bs rs M pzs
    apply deliverySteps_preserves
    refine ⟨0, Nat.zero_le _, ?_⟩
    apply generateDeliveryPointsGo_cursor
    intro j hj
    simp at hj
  · intro M dps pz k hc hk hfire
    obtain ⟨h1, h2, _⟩ := checkPizzaDelivery_fires M dps pz k hc hk hfire
    exact ⟨h1, h2⟩

/-- C6 (witness): two points with the cursor at `0`; a pizza at the first
point's centre advances the cursor to `1` atomically. -/
theorem delivery_exactly_one_active_witness :
    CursorAt (Server.checkPizzaDelivery ratMath
      [⟨⟨100, 100⟩, true, 40⟩, ⟨⟨300, 300⟩, false, 40⟩]
      ⟨⟨100, 100⟩, ⟨0, 0⟩, true, false, false, none⟩).1 1 ∧
    ∃ k ≤ (deliverySteps ratMath (Generators.generateDeliveryPoints [] (fun _ => 0)) []).length,
      CursorAt (deliverySteps ratMath (Generators.generateDeliveryPoints [] (fun _ => 0)) []) k := by
  constructor
  · have hc : CursorAt [⟨⟨100, 100⟩, true, 40⟩, ⟨⟨300, 300⟩, false, 40⟩] 0 := by
      intro j hj
      simp only [List.length_cons, List.length_nil] at hj
      interval_cases j <;> rfl
    have hk : (0 : ℕ) < 2 := by norm_num
    have h := (delivery_exactly_one_active.2 ratMath
      [⟨⟨100, 100⟩, true, 40⟩, ⟨⟨300, 300⟩, false, 40⟩]
      ⟨⟨100, 100⟩, ⟨0, 0⟩, true, false, false, none⟩ 0 hc hk
      (by norm_num [ratMath, ratSqrt])).1
    exact h
  · exact delivery_exactly_one_active.1 [] (fun _ => 0) ratMath []

/-! ## C9: delivery at the target centre scores the maximum -/

theorem jsMath_sqrt_zero (M : JsMath) : M.sqrt 0 = 0 := by
  have h := M.sqrt_sq 0 (le_refl 0)
  simpa using h

/-- C9 (confirmed).  (1) A projectile sitting exactly at the active delivery
target's centre with velocity `(0, 0)` is resolved on the next server physics
tick: it is removed from play marked `delivered` and the emitted score is
`deliveryScore 0 r = 200`.  (2) `200` is the maximum of the scoring formula
over any distance in `[0, radius]`, the formula is antitone in the stopping
distance (linear decay through the floor), and it never drops below the
positive floor `50`. -/
theorem delivery_center_scores_max :
    (∀ (M : JsMath) (buildings : List Building) (vehicles : List Vehicle)
        (dps : List DeliveryPoint) (px py : ℚ) (pid : Option String) (k : ℕ)
        (hc : CursorAt dps k) (hk : k < dps.length),
      (dps.get ⟨k, hk⟩).position = ⟨px, py⟩ →
      buildings.any (Server.checkPizzaBuildingCollision
        ⟨⟨px, py⟩, ⟨0, 0⟩, true, false, true, pid⟩) = false →
      vehicles.any (Server.checkPizzaVehicleCollision M
        ⟨⟨px, py⟩, ⟨0, 0⟩, true, false, true, pid⟩) = false →
      0 ≤ (dps.get ⟨k, hk⟩).radius →
      (Server.updatePizzaStep M buildings vehicles dps
          ⟨⟨px, py⟩, ⟨0, 0⟩, true, false, true, pid⟩).2.1 = none ∧
      (Server.updatePizzaStep M buildings vehicles dps
          ⟨⟨px, py⟩, ⟨0, 0⟩, true, false, true, pid⟩).2.2 =
        some (pid, 200) ∧
      (Server.checkPizzaDelivery M dps
          ⟨⟨px, py⟩, ⟨0, 0⟩, true, false, false, pid⟩).2.1.delivered = true) ∧
    (∀ r : ℚ, Server.deliveryScore 0 r = 200) ∧
    (∀ d r : ℚ, 0 ≤ d → d ≤ r → 0 < r →
      50 ≤ Server.deliveryScore d r ∧ Server.deliveryScore d r ≤ 200) ∧
    (∀ d₁ d₂ r : ℚ, 0 ≤ d₁ → d₁ ≤ d₂ → 0 < r →
      Server.deliveryScore d₂ r ≤ Server.deliveryScore d₁ r) := by
  have hscore0 : ∀ r : ℚ, Server.deliveryScore 0 r = 200 := by
    intro r
    unfold Server.deliveryScore jsFloor
    norm_num
  refine ⟨?_, hscore0, ?_, ?_⟩
  · intro M buildings vehicles dps px py pid k hc hk hpos hnb hnv hr
    have hidx := cursorAt_findIdx_lt dps k hc hk
    have hget : dps[k]? = some (dps.get ⟨k, hk⟩) := by
      rw [List.getElem?_eq_getElem hk]
      rfl
    have hsq0 : M.sqrt 0 = 0 := jsMath_sqrt_zero M
    have hdel : Server.checkPizzaDelivery M dps
        ⟨⟨px, py⟩, ⟨0, 0⟩, true, false, false, pid⟩ =
        (dps.mapIdx fun j p =>
          if j = k then { p with active := false }
          else if j = k + 1 then { p with active := true }
          else p,
         ⟨⟨px, py⟩, ⟨0, 0⟩, true, true, false, pid⟩, some (pid, 200)) := by
      unfold Server.checkPizzaDelivery
      rw [hidx]
      dsimp only
      rw [hget]
      dsimp only
      rw [hpos]
      dsimp only
      rw [show px - px = 0 by ring, show py - py = 0 by ring]
      rw [show (0 : ℚ) * 0 + 0 * 0 = 0 by ring, hsq0]
      rw [if_pos hr]
      rw [show Server.deliveryScore 0 (dps.get ⟨k, hk⟩).radius = 200 from hscore0 _]
    refine ⟨?_, ?_, by rw [hdel]⟩
    all_goals
      unfold Server.updatePizzaStep Server.serverBouncePhase
      simp only [Bool.not_true, Bool.false_eq_true, if_false, add_zero,
        mul_zero, zero_mul]
      rw [hnb]
      simp only [Bool.false_eq_true, if_false]
      rw [hnv]
      simp only [Bool.false_eq_true, if_false]
      rw [show (0 : ℚ) * 0 + 0 * 0 = 0 by ring, hsq0]
      rw [if_pos (by norm_num)]
      try rw [hdel]
  · intro d r hd hdr hr
    unfold Server.deliveryScore jsFloor
    have h1 : (0 : ℚ) ≤ 1 - d / r := by
      have : d / r ≤ 1 := (div_le_one hr).mpr hdr
      linarith
    have h2 : 1 - d / r ≤ 1 := by
      have : 0 ≤ d / r := div_nonneg hd (le_of_lt hr)
      linarith
    constructor
    · have : (0 : ℚ) ≤ (1 - d / r) * 150 := by positivity
      have hfl : (0 : ℤ) ≤ ⌊(1 - d / r) * 150⌋ := by
        exact_mod_cast Int.le_floor.mpr (by exact_mod_cast this)
      omega
    · have : (1 - d / r) * 150 ≤ 150 := by nlinarith
      have hfl : ⌊(1 - d / r) * 150⌋ ≤ 150 := by
        have := Int.floor_le_floor (α := ℚ) this
        simpa using this
      omega
  · intro d₁ d₂ r h1 h12 hr
    unfold Server.deliveryScore jsFloor
    have hdiv : d₁ / r ≤ d₂ / r := (div_le_div_right hr).mpr h12
    have hmul : (1 - d₂ / r) * 150 ≤ (1 - d₁ / r) * 150 := by nlinarith
    have hfl := Int.floor_le_floor (α := ℚ) hmul
    omega

/-- C9 (witness): one target at `(100, 100)` with radius `40`, a pizza parked
exactly there; the scenario theorem applies and the emitted score is `200`. -/
theorem delivery_center_scores_max_witness :
    (Server.updatePizzaStep ratMath [] [] [⟨⟨100, 100⟩, true, 40⟩]
      ⟨⟨100, 100⟩, ⟨0, 0⟩, true, false, true, some "p1"⟩).2.2 =
      some (some "p1", 200) ∧
    Server.deliveryScore 0 40 = 200 := by
  constructor
  · have hc : CursorAt [⟨⟨100, 100⟩, true, 40⟩] 0 := by
      intro j hj
      simp only [List.length_cons, List.length_nil] at hj
      interval_cases j <;> rfl
    exact (delivery_center_scores_max.1 ratMath [] [] [⟨⟨100, 100⟩, true, 40⟩]
      100 100 (some "p1") 0 hc (by norm_num) rfl rfl rfl (by norm_num)).2.1
  · exact delivery_center_scores_max.2.1 40

/-! ## C8: bounces per tick -/

/-- Helper: the server bounce phase multiplies the velocity by
`(−0.7)^(buildingHit + vehicleHit)` — the vehicle test reads only positions,
so a preceding building bounce does not mask it. -/
theorem serverBouncePhase_formula (M : JsMath) (bs : List Building)
    (vs : List Vehicle) (pz : Pizza) :
    Server.serverBouncePhase M bs vs pz =
      { pz with velocity :=
        ⟨pz.velocity.x * (-7/10) ^
            ((bs.any (Server.checkPizzaBuildingCollision pz)).toNat +
             (vs.any (Server.checkPizzaVehicleCollision M pz)).toNat),
         pz.velocity.y * (-7/10) ^
            ((bs.any (Server.checkPizzaBuildingCollision pz)).toNat +
             (vs.any (Server.checkPizzaVehicleCollision M pz)).toNat)⟩ } := by
  have hveq : ∀ w : Vector2, Server.checkPizzaVehicleCollision M { pz with velocity := w } =
      Server.checkPizzaVehicleCollision M pz := fun w => rfl
  unfold Server.serverBouncePhase
  by_cases hb : bs.any (Server.checkPizzaBuildingCollision pz) = true
  · rw [if_pos hb]
    dsimp only
    rw [show Server.handlePizzaCollision pz =
      { pz with velocity := ⟨pz.velocity.x * (-7/10), pz.velocity.y * (-7/10)⟩ }
      from rfl]
    rw [hveq]
    by_cases hv : vs.any (Server.checkPizzaVehicleCollision M pz) = true
    · rw [if_pos hv, hb, hv]
      unfold Server.handlePizzaCollision
      simp only [Pizza.mk.injEq, Vector2.mk.injEq, Bool.toNat_true, true_and,
        and_true]
      constructor <;> ring
    · rw [if_neg hv, hb, Bool.eq_false_iff.mpr hv]
      simp only [Pizza.mk.injEq, Vector2.mk.injEq, Bool.toNat_true,
        Bool.toNat_false, true_and, and_true]
      constructor <;> ring
  · rw [if_neg hb]
    dsimp only
    by_cases hv : vs.any (Server.checkPizzaVehicleCollision M pz) = true
    · rw [if_pos hv, Bool.eq_false_iff.mpr hb, hv]
      unfold Server.handlePizzaCollision
      simp only [Pizza.mk.injEq, Vector2.mk.injEq, Bool.toNat_true,
        Bool.toNat_false, true_and, and_true]
      constructor <;> ring
    · rw [if_neg hv, Bool.eq_false_iff.mpr hb, Bool.eq_false_iff.mpr hv]
      show ({ pz with velocity := ⟨pz.velocity.x, pz.velocity.y⟩ } : Pizza) = _
      simp only [Pizza.mk.injEq, Vector2.mk.injEq, Bool.toNat_false, true_and,
        and_true]
      constructor <;> ring

/-- Helper: once a building hit occurs, the client bounce phase ignores the
vehicle list. -/
theorem clientBouncePhase_vehicle_irrel (M : JsMath) (bs : List Building)
    (vs vs' : List Vehicle) (pz : Pizza)
    (h : (bs.find? fun b => decide (b.type = BuildingType.building) &&
      Client.checkPizzaRectCollision pz b.x b.y b.width b.height).isSome = true) :
    Client.clientBouncePhase M bs vs pz = Client.clientBouncePhase M bs vs' pz := by
  unfold Client.clientBouncePhase
  dsimp only
  rw [h]
  simp

/-- Helper: the exact rational square root of `0`. -/
theorem ratSqrt_zero : ratSqrt 0 = 0 := by
  unfold ratSqrt
  norm_num

/-- C8 (counterexample).  The claim says at most one bounce is applied per
tick, the first obstacle hit winning, with no further obstacle or vehicle
collision processed for that projectile in the same tick.  On the networked
server the per-tick collision processing of a pizza that sits strictly inside
a building and on top of a vehicle applies two bounces: the outgoing
x-velocity is `2·(−0.7)·(−0.7) = 49/50 > 0` — the sign was flipped twice,
whereas a single bounce would leave it negative.  (The server "bounce" is
also a plain velocity inversion, not a reflection about a surface normal.) -/
theorem server_double_bounce_cex :
    Server.serverBouncePhase ratMath
      [⟨0, 0, 100, 100, BuildingType.building, 0⟩]
      [⟨⟨50, 50⟩, ⟨0, 0⟩, 0, ⟨25, 15⟩, VehicleKind.car, "#ff4444", 1, ⟨0, 0⟩,
        ⟨0, 0⟩, ⟨[], RouteType.linear, 0, true⟩, 0, 50⟩]
      ⟨⟨50, 50⟩, ⟨2, 0⟩, true, false, true, none⟩ =
      ⟨⟨50, 50⟩, ⟨2 * ((-7/10) * (-7/10)), 0 * ((-7/10) * (-7/10))⟩, true,
        false, true, none⟩ ∧
    (0 : ℚ) < 2 * ((-7/10) * (-7/10)) := by
  constructor
  · rw [serverBouncePhase_formula]
    have hb : ([⟨0, 0, 100, 100, BuildingType.building, 0⟩] : List Building).any
        (Server.checkPizzaBuildingCollision
          ⟨⟨50, 50⟩, ⟨2, 0⟩, true, false, true, none⟩) = true := by
      simp [Server.checkPizzaBuildingCollision]
      norm_num
    have hv : ([⟨⟨50, 50⟩, ⟨0, 0⟩, 0, ⟨25, 15⟩, VehicleKind.car, "#ff4444", 1,
        ⟨0, 0⟩, ⟨0, 0⟩, ⟨[], RouteType.linear, 0, true⟩, 0, 50⟩] :
        List Vehicle).any
        (Server.checkPizzaVehicleCollision ratMath
          ⟨⟨50, 50⟩, ⟨2, 0⟩, true, false, true, none⟩) = true := by
      simp only [List.any_cons, List.any_nil, Bool.or_false]
      unfold Server.checkPizzaVehicleCollision
      simp only [decide_eq_true_eq]
      show ratSqrt ((50 - 50) * (50 - 50) + (50 - 50) * (50 - 50)) < (25 + 15) / 4
      rw [show ((50 : ℚ) - 50) * (50 - 50) + (50 - 50) * (50 - 50) = 0 by ring,
        ratSqrt_zero]
      norm_num
    rw [hb, hv]
    simp only [Pizza.mk.injEq, Vector2.mk.injEq, Bool.toNat_true, true_and,
      and_true]
    constructor <;> ring
  · norm_num

/-- C8 (amended).  On the server each of the two collision loops applies at
most one bounce (first hit wins), but both run in the same tick: the
post-collision velocity is the post-friction velocity times
`(−0.7)^(buildingHit + vehicleHit)`, i.e. a velocity inversion per hit (a
reflection with the normal taken along the motion, not the surface normal),
up to two per tick.  On the client, once a building hit occurs the vehicle
loop is skipped entirely: the result does not depend on the vehicle list. -/
theorem bounce_per_tick :
    (∀ (M : JsMath) (bs : List Building) (vs : List Vehicle) (pz : Pizza),
      Server.serverBouncePhase M bs vs pz =
        { pz with velocity :=
          ⟨pz.velocity.x * (-7/10) ^
              ((bs.any (Server.checkPizzaBuildingCollision pz)).toNat +
               (vs.any (Server.checkPizzaVehicleCollision M pz)).toNat),
           pz.velocity.y * (-7/10) ^
              ((bs.any (Server.checkPizzaBuildingCollision pz)).toNat +
               (vs.any (Server.checkPizzaVehicleCollision M pz)).toNat)⟩ }) ∧
    (∀ (M : JsMath) (bs : List Building) (vs vs' : List Vehicle) (pz : Pizza),
      (bs.find? fun b => decide (b.type = BuildingType.building) &&
        Client.checkPizzaRectCollision pz b.x b.y b.width b.height).isSome = true →
      Client.clientBouncePhase M bs vs pz = Client.clientBouncePhase M bs vs' pz) := by
  exact ⟨serverBouncePhase_formula, clientBouncePhase_vehicle_irrel⟩

/-- C8 (witness): the client part of the amended theorem at a concrete
building hit — the result is the same with and without a nearby vehicle. -/
theorem bounce_per_tick_witness :
    Client.clientBouncePhase ratMath [⟨0, 0, 100, 100, BuildingType.building, 0⟩]
      [⟨⟨50, 50⟩, ⟨0, 0⟩, 0, ⟨25, 15⟩, VehicleKind.car, "#ff4444", 1, ⟨0, 0⟩,
        ⟨0, 0⟩, ⟨[], RouteType.linear, 0, true⟩, 0, 50⟩]
      ⟨⟨50, 50⟩, ⟨1, 0⟩, true, false, true, none⟩ =
    Client.clientBouncePhase ratMath [⟨0, 0, 100, 100, BuildingType.building, 0⟩]
      [] ⟨⟨50, 50⟩, ⟨1, 0⟩, true, false, true, none⟩ := by
  apply bounce_per_tick.2 ratMath _ _ []
  rw [List.find?_cons_of_pos]
  · rfl
  · simp only [Bool.and_eq_true, decide_eq_true_eq]
    refine ⟨trivial, ?_⟩
    unfold Client.checkPizzaRectCollision
    simp only [decide_eq_true_eq]
    norm_num [max_def, min_def]

/-! ## C10: the server never mutates scores or delivery counts -/

/-- The join-time values of the two per-player gameplay counters. -/
def ZeroCounters (q : String × Server.NetworkPlayer) : Prop :=
  q.2.score = 0 ∧ q.2.deliveriesCompleted = 0

theorem putPlayer_zero (ps : List (String × Server.NetworkPlayer))
    (id : String) (p : Server.NetworkPlayer)
    (h : ∀ q ∈ ps, ZeroCounters q)
    (hp : p.score = 0 ∧ p.deliveriesCompleted = 0) :
    ∀ q ∈ Server.putPlayer ps id p, ZeroCounters q := by
  intro q hq
  rcases Server.mem_putPlayer ps id p q hq with h1 | h1
  · subst h1
    exact hp
  · exact h q h1

theorem getPlayer_zero (s : Server.NetworkGameState) (id : String)
    (p : Server.NetworkPlayer) (h : ∀ q ∈ s.players, ZeroCounters q)
    (hp : Server.getPlayer s id = some p) :
    p.score = 0 ∧ p.deliveriesCompleted = 0 := by
  unfold Server.getPlayer at hp
  cases hfind : s.players.find? (·.1 = id) with
  | none => rw [hfind] at hp; simp at hp
  | some q =>
    rw [hfind] at hp
    simp only [Option.map_some', Option.some.injEq] at hp
    have hmem := List.mem_of_find?_eq_some hfind
    have hz := h q hmem
    rw [← hp]
    exact hz

theorem applyEvent_zero (e : Server.Event) (s : Server.NetworkGameState)
    (h : ∀ q ∈ s.players, ZeroCounters q) :
    ∀ q ∈ (Server.applyEvent e s).players, ZeroCounters q := by
  cases e with
  | join id r1 r2 =>
    unfold Server.applyEvent Server.handlePlayerJoin
    dsimp only
    exact putPlayer_zero _ _ _ h ⟨rfl, rfl⟩
  | update id data =>
    unfold Server.applyEvent Server.handlePlayerUpdate
    dsimp only
    cases hp : Server.getPlayer s id with
    | none => exact h
    | some p => exact putPlayer_zero _ _ _ h (getPlayer_zero s id p h hp)
  | throwPizza id data =>
    unfold Server.applyEvent Server.handleThrowPizza
    dsimp only
    cases hp : Server.getPlayer s id with
    | none => exact h
    | some p =>
      dsimp only
      split
      · exact h
      · exact putPlayer_zero _ _ _ h (getPlayer_zero s id p h hp)
  | charge id c pw =>
    unfold Server.applyEvent Server.handlePlayerCharge
    dsimp only
    cases hp : Server.getPlayer s id with
    | none => exact h
    | some p => exact putPlayer_zero _ _ _ h (getPlayer_zero s id p h hp)
  | brake id b =>
    unfold Server.applyEvent Server.handlePlayerBrake
    dsimp only
    cases hp : Server.getPlayer s id with
    | none => exact h
    | some p => exact putPlayer_zero _ _ _ h (getPlayer_zero s id p h hp)
  | setName id n =>
    unfold Server.applyEvent Server.handleSetPlayerName
    dsimp only
    cases hp : Server.getPlayer s id with
    | none => exact h
    | some p => exact putPlayer_zero _ _ _ h (getPlayer_zero s id p h hp)
  | disconnect id =>
    unfold Server.applyEvent Server.handlePlayerDisconnect
    dsimp only
    split
    · intro q hq
      simp [Server.handleGameReset, Server.initialGameState] at hq
    · intro q hq
      exact h q (List.mem_of_mem_filter hq)
  | reset =>
    intro q hq
    simp [Server.applyEvent, Server.handleGameReset, Server.initialGameState] at hq
  | start bs dps vs => exact h
  | tick M =>
    unfold Server.applyEvent Server.serverTick
    dsimp only
    split
    · exact h
    · split
      · exact h
      · exact h
  | vtick M =>
    unfold Server.applyEvent Server.vehicleTick
    dsimp only
    split
    · exact h
    · exact h

/-- C10 (confirmed).  In every reachable networked-server state every
player's `score` and `deliveriesCompleted` still hold their join-time value
`0` — no handler or tick ever writes them — so both columns of the
`match-over` summary collected by `endGame` are all zeros, even after
deliveries were resolved and broadcast during the match. -/
theorem server_scores_stay_zero (s : Server.NetworkGameState)
    (h : Server.Reachable s) :
    (∀ q ∈ s.players, q.2.score = 0 ∧ q.2.deliveriesCompleted = 0) ∧
    (∀ e ∈ (Server.endGameSummary s).1, e.2 = 0) ∧
    (∀ e ∈ (Server.endGameSummary s).2, e.2 = 0) := by
  have hz : ∀ q ∈ s.players, ZeroCounters q := by
    induction h with
    | init =>
      intro q hq
      simp [Server.initialGameState] at hq
    | step e _ ih => exact applyEvent_zero e _ ih
  refine ⟨hz, ?_, ?_⟩
  · intro e he
    obtain ⟨q, hq, rfl⟩ := List.mem_map.mp he
    exact (hz q hq).1
  · intro e he
    obtain ⟨q, hq, rfl⟩ := List.mem_map.mp he
    exact (hz q hq).2

/-- C10 (witness): after a join, a client update claiming a nonzero score
field is irrelevant — the summary of the reachable state is all zeros. -/
theorem server_scores_stay_zero_witness :
    ((Server.endGameSummary (Server.applyEvent (Server.Event.join "p1" 0 0)
        Server.initialGameState)).1.all fun e => decide (e.2 = 0)) = true ∧
    ((Server.endGameSummary (Server.applyEvent (Server.Event.join "p1" 0 0)
        Server.initialGameState)).2.all fun e => decide (e.2 = 0)) = true := by
  have h := server_scores_stay_zero _
    (Server.Reachable.step (Server.Event.join "p1" 0 0) Server.Reachable.init)
  constructor
  · rw [List.all_eq_true]
    intro e he
    exact decide_eq_true (h.2.1 e he)
  · rw [List.all_eq_true]
    intro e he
    exact decide_eq_true (h.2.2 e he)

/-! ## C1: the order of the end-of-match checks -/

theorem brakeTurnPhase_deliveries (keys : Client.Keys) (s : Client.GameState) :
    (Client.brakeTurnPhase keys s).deliveriesCompleted = s.deliveriesCompleted := by
  unfold Client.brakeTurnPhase
  dsimp only
  repeat' split
  all_goals rfl

theorem speedEnvelopePhase_deliveries (keys : Client.Keys) (s : Client.GameState) :
    (Client.speedEnvelopePhase keys s).deliveriesCompleted = s.deliveriesCompleted := by
  unfold Client.speedEnvelopePhase
  dsimp only
  repeat' split
  all_goals rfl

/-- C1 (counterexample).  A started, non-over client state that has met the
delivery quota (`deliveriesCompleted = 10 = REQUIRED_DELIVERIES`) with all
throws spent, nothing in flight and plenty of time left: the tick ends the
match through the stalemate branch with `score` still `0` — the victory
branch, which would have added the `⌊timeLeft·10⌋` bonus, is never reached,
so the stalemate check preempts the victory check. -/
theorem stalemate_preempts_victory_cex :
    ((Client.clientTick ratMath noKeys false "p" zeroRand 0 c1CexState).map
        fun s => (s.gameOver, s.score)) = some (true, 0) ∧
    Client.REQUIRED_DELIVERIES ≤ c1CexState.deliveriesCompleted ∧
    ¬ c1CexState.timeLeft - 1/60 ≤ 0 := by
  have hE : Client.endCheck1
      { c1CexState with timeLeft := c1CexState.timeLeft - 1/60 } = true := by
    unfold Client.endCheck1
    dsimp only
    simp only [Bool.or_eq_true, Bool.and_eq_true, decide_eq_true_eq]
    exact Or.inr ⟨by rw [show c1CexState.pizzasRemaining = 0 from rfl],
      by rw [show c1CexState.pizzas = [] from rfl]; rfl⟩
  refine ⟨?_, ?_, ?_⟩
  · unfold Client.clientTick
    dsimp only
    rw [hE, if_pos rfl, Option.map_some']
    rfl
  · rw [show c1CexState.deliveriesCompleted = 10 from rfl]
    norm_num [Client.REQUIRED_DELIVERIES]
  · rw [show c1CexState.timeLeft = 100 from rfl]
    norm_num

/-- C1 (corrected).  On the client tick the combined time-out/stalemate
check (`endCheck1`, the `timeLeft ≤ 0 ∨ (no throws ∧ nothing in flight)`
early return) is evaluated FIRST and awards no bonus; only when it does not
fire is the victory check `REQUIRED_DELIVERIES ≤ deliveriesCompleted`
evaluated — after the brake and speed-envelope phases — ending the match
with the `⌊timeLeft·10⌋` bonus added to the score.  Both terminate the tick
through an early return, so at most one fires per tick.  The networked
server's tick performs only the timer check: for a started, non-over room it
sets `gameOver` exactly when the decremented timer drops to `≤ 0`. -/
theorem end_check_order (M : JsMath) (keys : Client.Keys) (sock : Bool)
    (sid : String) (rs : ℕ → ℚ) (fuel : ℕ) (s : Client.GameState)
    (t : Server.NetworkGameState) :
    (Client.endCheck1 { s with timeLeft := s.timeLeft - 1/60 } = true →
      Client.clientTick M keys sock sid rs fuel s =
        some { s with timeLeft := s.timeLeft - 1/60, gameOver := true }) ∧
    (Client.endCheck1 { s with timeLeft := s.timeLeft - 1/60 } = false →
      Client.REQUIRED_DELIVERIES ≤ s.deliveriesCompleted →
      Client.clientTick M keys sock sid rs fuel s =
        some (let s1 := Client.speedEnvelopePhase keys
                (Client.brakeTurnPhase keys { s with timeLeft := s.timeLeft - 1/60 })
              { s1 with gameOver := true,
                        score := s1.score + (jsFloor (s1.timeLeft * 10) : ℚ) })) ∧
    (t.gameStarted = true → t.gameOver = false →
      ((Server.serverTick M t).gameOver = true ↔ t.timeLeft - 1/60 ≤ 0)) := by
  refine ⟨?_, ?_, ?_⟩
  · intro h
    unfold Client.clientTick
    dsimp only
    rw [h, if_pos rfl]
  · intro h1 h2
    unfold Client.clientTick
    dsimp only
    rw [h1]
    simp only [Bool.false_eq_true, if_false]
    have hd : Client.REQUIRED_DELIVERIES ≤
        (Client.speedEnvelopePhase keys (Client.brakeTurnPhase keys
          { s with timeLeft := s.timeLeft - 1/60 })).deliveriesCompleted := by
      rw [speedEnvelopePhase_deliveries, brakeTurnPhase_deliveries]
      exact h2
    rw [if_pos hd]
  · intro hg hgo
    unfold Server.serverTick
    rw [hg, hgo]
    simp only [Bool.not_true, Bool.false_or, Bool.false_eq_true, if_false]
    dsimp only
    split
    · rename_i h
      simp only [Server.endGame, h, iff_true]
    · rename_i h
      unfold Server.updatePizzas
      dsimp only
      simp only [Bool.false_eq_true, false_iff]
      exact h

/-- C1 (witness): with the timer at `0`, the tick ends the match through the
first check without touching the score; and the started, non-over server
room with the full clock is not ended by its tick. -/
theorem end_check_order_witness :
    Client.clientTick ratMath noKeys false "p" zeroRand 0
        { baseClientState with timeLeft := 0 } =
      some { { baseClientState with timeLeft := 0 } with
               timeLeft := ({ baseClientState with timeLeft := 0 } :
                 Client.GameState).timeLeft - 1/60,
               gameOver := true } ∧
    ((Server.serverTick ratMath c1ServerState).gameOver = true ↔
      c1ServerState.timeLeft - 1/60 ≤ 0) := by
  have hcl := (end_check_order ratMath noKeys false "p" zeroRand 0
    { baseClientState with timeLeft := 0 } c1ServerState).1
  have hsrv := (end_check_order ratMath noKeys false "p" zeroRand 0
    { baseClientState with timeLeft := 0 } c1ServerState).2.2 rfl rfl
  refine ⟨hcl ?_, hsrv⟩
  unfold Client.endCheck1
  dsimp only
  simp only [Bool.or_eq_true, Bool.and_eq_true, decide_eq_true_eq]
  exact Or.inl (by norm_num)

/-! ## C2: the per-tick speed bounds -/

theorem c2_endCheck : Client.endCheck1 c2S1 = false := by
  unfold Client.endCheck1
  rw [show c2S1.timeLeft = 100 - 1/60 from rfl,
      decide_eq_false (by norm_num : ¬((100 : ℚ) - 1/60 ≤ 0))]
  rfl

theorem c2_brakeTurn : Client.brakeTurnPhase noKeys c2S1 = c2S1 := rfl

theorem c2_speedEnvelope : Client.speedEnvelopePhase noKeys c2S1 = c2S1 := by
  have h1 : ¬ (c2S1.currentSpeed < c2S1.maxSpeed) := by
    rw [show c2S1.currentSpeed = 7/10 from rfl, show c2S1.maxSpeed = 7/10 from rfl]
    exact lt_irrefl _
  have h2 : ¬ (c2S1.currentSpeed > c2S1.maxSpeed) := by
    rw [show c2S1.currentSpeed = 7/10 from rfl, show c2S1.maxSpeed = 7/10 from rfl]
    exact lt_irrefl _
  unfold Client.speedEnvelopePhase
  dsimp only
  rw [if_neg h1, if_neg h2]
  dsimp only
  rw [if_neg h2]
  rfl

/-- C2 (counterexample).  On the tick in which a collision spin ends, the
shared spin block zeroes `currentSpeed`: starting the tick at the full
envelope speed (`currentSpeed = maxSpeed = 0.7`) with one spin left and one
frame on its timer, the tick returns a state whose `currentSpeed` is `0`,
strictly below `PLAYER_SPEED_MIN = 0.2` — the claimed lower bound
`minSpeed ≤ currentSpeed` fails on spin-end ticks. -/
theorem spin_end_drops_below_min_cex :
    ((Client.clientTick ratMath noKeys false "p" zeroRand 0 c2CexState).map
        fun t => t.currentSpeed) = some 0 ∧
    (0 : ℚ) < Client.PLAYER_SPEED_MIN := by
  refine ⟨?_, by norm_num [Client.PLAYER_SPEED_MIN]⟩
  unfold Client.clientTick
  dsimp only
  rw [show ({ c2CexState with timeLeft := c2CexState.timeLeft - 1/60 } :
      Client.GameState) = c2S1 from rfl]
  rw [c2_endCheck, if_neg Bool.false_ne_true]
  rw [c2_brakeTurn, c2_speedEnvelope]
  rw [if_neg (by decide : ¬ Client.REQUIRED_DELIVERIES ≤ c2S1.deliveriesCompleted)]
  rfl

theorem foldl_pres {α β : Type _} (f : β → α → β) (P : β → Prop)
    (hf : ∀ b a, P b → P (f b a)) :
    ∀ (l : List α) (b : β), P b → P (l.foldl f b) := by
  intro l
  induction l with
  | nil => intro b hb; exact hb
  | cons a t ih => intro b hb; exact ih (f b a) (hf b a hb)

theorem foldl_option_none {α β : Type _} (f : Option β → α → Option β)
    (hnone : ∀ a, f none a = none) :
    ∀ l : List α, l.foldl f none = none := by
  intro l
  induction l with
  | nil => rfl
  | cons a t ih => rw [List.foldl_cons, hnone a]; exact ih

theorem foldl_option_pres {α β : Type _} (f : Option β → α → Option β)
    (P : β → Prop)
    (hnone : ∀ a, f none a = none)
    (hf : ∀ b a c, f (some b) a = some c → P b → P c) :
    ∀ (l : List α) (b c : β), l.foldl f (some b) = some c → P b → P c := by
  intro l
  induction l with
  | nil =>
    intro b c h hb
    rw [List.foldl_nil] at h
    obtain rfl : b = c := Option.some.inj h
    exact hb
  | cons a t ih =>
    intro b c h hb
    rw [List.foldl_cons] at h
    cases hfa : f (some b) a with
    | none =>
      rw [hfa, foldl_option_none f hnone t] at h
      exact Option.noConfusion h
    | some b' =>
      rw [hfa] at h
      exact ih b' c h (hf b a b' hfa hb)

theorem spinStep_speed (s : Client.GameState) :
    ((Client.spinStep s).currentSpeed = s.currentSpeed ∨
      (Client.spinStep s).currentSpeed = 0) ∧
    (Client.spinStep s).maxSpeed = s.maxSpeed := by
  unfold Client.spinStep
  dsimp only
  repeat' split
  all_goals first
    | exact ⟨Or.inl rfl, rfl⟩
    | exact ⟨Or.inr rfl, rfl⟩

theorem chargePhase_speed (s : Client.GameState) :
    (Client.chargePhase s).currentSpeed = s.currentSpeed ∧
    (Client.chargePhase s).maxSpeed = s.maxSpeed := by
  unfold Client.chargePhase
  dsimp only
  repeat' split
  all_goals exact ⟨rfl, rfl⟩

theorem movementPhase_speed (M : JsMath) (keys : Client.Keys)
    (s : Client.GameState) :
    ((Client.movementPhase M keys s).currentSpeed = s.currentSpeed ∨
      (Client.movementPhase M keys s).currentSpeed = 0) ∧
    (Client.movementPhase M keys s).maxSpeed = s.maxSpeed := by
  unfold Client.movementPhase
  dsimp only
  split
  · exact ⟨Or.inl rfl, rfl⟩
  · split
    · exact spinStep_speed s
    · repeat' split
      all_goals exact ⟨Or.inl rfl, rfl⟩

theorem brakeTurnPhase_speed (keys : Client.Keys) (s : Client.GameState)
    (h : 0 ≤ s.currentSpeed) :
    0 ≤ (Client.brakeTurnPhase keys s).currentSpeed ∧
    (Client.brakeTurnPhase keys s).maxSpeed = s.maxSpeed := by
  unfold Client.brakeTurnPhase
  dsimp only
  generalize hu : (if s.brakeCooldown > 0 then
      { s with brakeCooldown := s.brakeCooldown - 1 } else s : Client.GameState) = u
  have hu1 : u.currentSpeed = s.currentSpeed ∧ u.maxSpeed = s.maxSpeed := by
    rw [← hu]; split <;> exact ⟨rfl, rfl⟩
  generalize hv : (if !u.isTurning && (keys.a || keys.d) then
      { u with turnFrictionPhase := Client.TurnPhase.decelerating, turnFrictionTimer := 15 }
    else if u.isTurning && !(keys.a || keys.d) then
      { u with turnFrictionPhase := Client.TurnPhase.accelerating, turnFrictionTimer := 30 }
    else u : Client.GameState) = v
  have hv1 : v.currentSpeed = u.currentSpeed ∧ v.maxSpeed = u.maxSpeed := by
    rw [← hv]; repeat' split
    all_goals exact ⟨rfl, rfl⟩
  have hcs : v.currentSpeed = s.currentSpeed := by rw [hv1.1, hu1.1]
  have hms : v.maxSpeed = s.maxSpeed := by rw [hv1.2, hu1.2]
  split
  · split
    · refine ⟨le_trans (by norm_num [Client.PLAYER_SPEED_MIN]) (le_max_left _ _), ?_⟩
      dsimp only
      exact hms
    · refine ⟨le_trans (by norm_num [Client.PLAYER_SPEED_MIN]) (le_max_left _ _), ?_⟩
      dsimp only
      exact hms
  · split
    · refine ⟨le_min (by norm_num [Client.PLAYER_SPEED_MAX])
        (add_nonneg (by rw [hcs]; exact h)
          (by norm_num [Client.PLAYER_SPEED_NORMAL])), ?_⟩
      dsimp only
      exact hms
    · refine ⟨le_min (by norm_num [Client.PLAYER_SPEED_MAX])
        (add_nonneg (by rw [hcs]; exact h)
          (by norm_num [Client.PLAYER_SPEED_NORMAL])), ?_⟩
      dsimp only
      exact hms
  · exact ⟨by rw [hcs]; exact h, hms⟩

theorem speedEnvelopePhase_speed (keys : Client.Keys) (s : Client.GameState)
    (h : 0 ≤ s.currentSpeed) (hm : 0 ≤ s.maxSpeed) :
    0 ≤ (Client.speedEnvelopePhase keys s).currentSpeed ∧
    (Client.speedEnvelopePhase keys s).currentSpeed ≤
      (Client.speedEnvelopePhase keys s).maxSpeed ∧
    (Client.speedEnvelopePhase keys s).maxSpeed = s.maxSpeed := by
  unfold Client.speedEnvelopePhase
  dsimp only
  by_cases h1 : s.currentSpeed < s.maxSpeed
  · rw [if_pos h1]
    dsimp only
    have hd : 0 ≤ (s.maxSpeed - s.currentSpeed) / Client.SPEED_TRANSITION_FRAMES :=
      div_nonneg (by linarith) (by norm_num [Client.SPEED_TRANSITION_FRAMES])
    split
    · exact ⟨hm, le_refl _, rfl⟩
    · rename_i h2
      exact ⟨le_min hm (by linarith), not_lt.mp h2, rfl⟩
  · rw [if_neg h1]
    by_cases h2 : s.currentSpeed > s.maxSpeed
    · rw [if_pos h2]
      dsimp only
      split
      · exact ⟨hm, le_refl _, rfl⟩
      · rename_i h3
        exact ⟨le_trans hm (le_max_left _ _), not_lt.mp h3, rfl⟩
    · rw [if_neg h2]
      dsimp only
      split
      · exact ⟨hm, le_refl _, rfl⟩
      · rename_i h3
        exact ⟨h, not_lt.mp h3, rfl⟩

theorem recoveryPhase_speed (s : Client.GameState)
    (h : 0 ≤ s.currentSpeed) (h1 : s.currentSpeed ≤ s.maxSpeed)
    (hm : 7/10 ≤ s.maxSpeed) :
    0 ≤ (Client.recoveryPhase s).currentSpeed ∧
    (Client.recoveryPhase s).currentSpeed ≤ (Client.recoveryPhase s).maxSpeed ∧
    (Client.recoveryPhase s).maxSpeed = s.maxSpeed := by
  unfold Client.recoveryPhase
  split
  · dsimp only
    refine ⟨le_min (by norm_num [Client.PLAYER_SPEED_NORMAL])
        (by simp only [Client.PLAYER_SPEED_NORMAL]; linarith), ?_, rfl⟩
    exact le_trans (min_le_left _ _)
      (by simp only [Client.PLAYER_SPEED_NORMAL]; exact hm)
  · exact ⟨h, h1, rfl⟩

theorem playerCollisionPhase_speed (s : Client.GameState) :
    ((Client.playerCollisionPhase s).currentSpeed = s.currentSpeed ∨
      (Client.playerCollisionPhase s).currentSpeed = 0) ∧
    (Client.playerCollisionPhase s).maxSpeed = s.maxSpeed := by
  unfold Client.playerCollisionPhase
  dsimp only
  repeat' split
  all_goals first
    | exact ⟨Or.inl rfl, rfl⟩
    | exact ⟨Or.inr rfl, rfl⟩

theorem vehiclesPhase_speed (M : JsMath) (rs : ℕ → ℚ) (fuel : ℕ)
    (s : Client.GameState) (ri : ℕ) (s' : Client.GameState) (ri' : ℕ)
    (h : Client.vehiclesPhase M rs fuel s ri = some (s', ri')) :
    s'.currentSpeed = s.currentSpeed ∧ s'.maxSpeed = s.maxSpeed := by
  unfold Client.vehiclesPhase at h
  refine foldl_option_pres _
    (fun p : Client.GameState × ℕ =>
      p.1.currentSpeed = s.currentSpeed ∧ p.1.maxSpeed = s.maxSpeed)
    (fun a => rfl) ?_ _ (s, ri) (s', ri') h ⟨rfl, rfl⟩
  intro b a c hc hb
  obtain ⟨bs, bri⟩ := b
  dsimp only at hc
  cases hvv : bs.vehicles[a]? with
  | none =>
    rw [hvv] at hc
    obtain rfl := Option.some.inj hc
    exact hb
  | some v =>
    rw [hvv] at hc
    dsimp only at hc
    cases huv : Client.updateVehiclePosition M bs.buildings bs.vehicles a v rs bri fuel with
    | none => rw [huv] at hc; exact Option.noConfusion hc
    | some p =>
      obtain ⟨v2, ri2⟩ := p
      rw [huv] at hc
      dsimp only at hc
      split at hc
      · obtain rfl := Option.some.inj hc
        exact hb
      · obtain rfl := Option.some.inj hc
        exact hb

theorem clientDeliverySuccess_speed (sock : Bool) (sid : String)
    (s : Client.GameState) (cp : DeliveryPoint) (points : ℤ) :
    (Client.clientDeliverySuccess sock sid s cp points).currentSpeed = s.currentSpeed ∧
    (Client.clientDeliverySuccess sock sid s cp points).maxSpeed = s.maxSpeed := by
  unfold Client.clientDeliverySuccess
  dsimp only
  repeat' split
  all_goals exact ⟨rfl, rfl⟩

theorem clientPizzaResolve_speed (M : JsMath) (sock : Bool) (sid : String)
    (s : Client.GameState) (pz : Pizza) :
    (Client.clientPizzaResolve M sock sid s pz).1.currentSpeed = s.currentSpeed ∧
    (Client.clientPizzaResolve M sock sid s pz).1.maxSpeed = s.maxSpeed := by
  unfold Client.clientPizzaResolve
  dsimp only
  repeat' split
  all_goals first
    | exact ⟨rfl, rfl⟩
    | exact clientDeliverySuccess_speed sock sid s _ _

theorem clientPizzaSlide_speed (M : JsMath) (sock : Bool) (sid : String)
    (s : Client.GameState) (pz : Pizza) :
    (Client.clientPizzaSlide M sock sid s pz).1.currentSpeed = s.currentSpeed ∧
    (Client.clientPizzaSlide M sock sid s pz).1.maxSpeed = s.maxSpeed := by
  unfold Client.clientPizzaSlide
  dsimp only
  repeat' split
  all_goals first
    | exact ⟨rfl, rfl⟩
    | exact clientPizzaResolve_speed M sock sid s _

theorem clientPizzaStep_speed (M : JsMath) (sock : Bool) (sid : String)
    (s : Client.GameState) (pz : Pizza) :
    (Client.clientPizzaStep M sock sid s pz).1.currentSpeed = s.currentSpeed ∧
    (Client.clientPizzaStep M sock sid s pz).1.maxSpeed = s.maxSpeed := by
  unfold Client.clientPizzaStep
  dsimp only
  repeat' split
  all_goals first
    | exact ⟨rfl, rfl⟩
    | exact clientDeliverySuccess_speed sock sid s _ _
    | exact clientPizzaSlide_speed M sock sid s _

theorem pizzasPhase_speed (M : JsMath) (sock : Bool) (sid : String)
    (s : Client.GameState) :
    (Client.pizzasPhase M sock sid s).currentSpeed = s.currentSpeed ∧
    (Client.pizzasPhase M sock sid s).maxSpeed = s.maxSpeed := by
  have key : ∀ (l : List Pizza) (acc : Client.GameState × List Pizza),
      acc.1.currentSpeed = s.currentSpeed ∧ acc.1.maxSpeed = s.maxSpeed →
      (l.foldl (fun (acc : Client.GameState × List Pizza) pz =>
          let t := Client.clientPizzaStep M sock sid acc.1 pz
          (t.1, acc.2 ++ t.2.toList)) acc).1.currentSpeed = s.currentSpeed ∧
      (l.foldl (fun (acc : Client.GameState × List Pizza) pz =>
          let t := Client.clientPizzaStep M sock sid acc.1 pz
          (t.1, acc.2 ++ t.2.toList)) acc).1.maxSpeed = s.maxSpeed := by
    intro l
    induction l with
    | nil => intro acc hacc; exact hacc
    | cons pz t ih =>
      intro acc hacc
      rw [List.foldl_cons]
      refine ih _ ⟨?_, ?_⟩
      · dsimp only
        rw [(clientPizzaStep_speed M sock sid acc.1 pz).1]
        exact hacc.1
      · dsimp only
        rw [(clientPizzaStep_speed M sock sid acc.1 pz).2]
        exact hacc.2
  unfold Client.pizzasPhase
  dsimp only
  exact key s.pizzas (s, []) ⟨rfl, rfl⟩

theorem tailSpinPhase_speed (s : Client.GameState) :
    ((Client.tailSpinPhase s).currentSpeed = s.currentSpeed ∨
      (Client.tailSpinPhase s).currentSpeed = 0) ∧
    (Client.tailSpinPhase s).maxSpeed = s.maxSpeed := by
  unfold Client.tailSpinPhase
  split
  · exact spinStep_speed s
  · exact ⟨Or.inl rfl, rfl⟩

theorem mid_bounds (M : JsMath) (keys : Client.Keys) (rs : ℕ → ℚ) (fuel : ℕ)
    (t : Client.GameState) (p : Client.GameState × ℕ)
    (h0 : 0 ≤ t.currentSpeed) (h1 : t.currentSpeed ≤ t.maxSpeed)
    (hm : 7/10 ≤ t.maxSpeed)
    (hv : Client.vehiclesPhase M rs fuel
        (Client.playerCollisionPhase (Client.movementPhase M keys t)) 0 = some p) :
    0 ≤ p.1.currentSpeed ∧ p.1.currentSpeed ≤ p.1.maxSpeed ∧
      p.1.maxSpeed = t.maxSpeed := by
  obtain ⟨q, ri⟩ := p
  have hmov := movementPhase_speed M keys t
  have hcol := playerCollisionPhase_speed (Client.movementPhase M keys t)
  have hveh := vehiclesPhase_speed M rs fuel _ _ _ _ hv
  have hms : q.maxSpeed = t.maxSpeed := by rw [hveh.2, hcol.2, hmov.2]
  have hcs := hveh.1
  rcases hcol.1 with h2 | h2
  · rcases hmov.1 with h3 | h3
    · refine ⟨?_, ?_, hms⟩
      · rw [hcs, h2, h3]; exact h0
      · rw [hcs, h2, h3, hms]; exact h1
    · refine ⟨?_, ?_, hms⟩
      · rw [hcs, h2, h3]
      · rw [hcs, h2, h3, hms]; linarith
  · refine ⟨?_, ?_, hms⟩
    · rw [hcs, h2]
    · rw [hcs, h2, hms]; linarith

/-- C2 (corrected).  For every started tick that returns a state (`some`),
if the player's speed entered the tick inside `[0, maxSpeed]` with the speed
envelope at or above its lowest setting (`SPEED_MIN = 0.7 ≤ maxSpeed`), the
returned speed is again inside `[0, maxSpeed]` — the true lower bound is `0`,
not `PLAYER_SPEED_MIN` (collision and spin-end ticks set the speed to `0`) —
and the tick never changes `maxSpeed`; the Shift/Ctrl key handlers keep
`maxSpeed` inside `[SPEED_MIN, SPEED_MAX] = [0.7, 5]`. -/
theorem clientTick_speed_bounds (M : JsMath) (keys : Client.Keys) (sock : Bool)
    (sid : String) (rs : ℕ → ℚ) (fuel : ℕ) (s s' : Client.GameState)
    (h0 : 0 ≤ s.currentSpeed) (h1 : s.currentSpeed ≤ s.maxSpeed)
    (hm : 7/10 ≤ s.maxSpeed)
    (ht : Client.clientTick M keys sock sid rs fuel s = some s') :
    (0 ≤ s'.currentSpeed ∧ s'.currentSpeed ≤ s'.maxSpeed ∧
      s'.maxSpeed = s.maxSpeed) ∧
    (Client.SPEED_MIN ≤ (Client.handleShiftDown s).maxSpeed ∧
      (Client.handleShiftDown s).maxSpeed ≤ Client.SPEED_MAX) ∧
    (s.maxSpeed ≤ Client.SPEED_MAX →
      Client.SPEED_MIN ≤ (Client.handleControlDown s).maxSpeed ∧
      (Client.handleControlDown s).maxSpeed ≤ Client.SPEED_MAX) := by
  refine ⟨?_, ⟨?_, ?_⟩, fun hcap => ⟨?_, ?_⟩⟩
  · unfold Client.clientTick at ht
    dsimp only at ht
    split at ht
    · obtain rfl := Option.some.inj ht
      exact ⟨h0, h1, rfl⟩
    · have hb := brakeTurnPhase_speed keys { s with timeLeft := s.timeLeft - 1/60 } h0
      have hse := speedEnvelopePhase_speed keys
        (Client.brakeTurnPhase keys { s with timeLeft := s.timeLeft - 1/60 }) hb.1
        (by rw [hb.2]; exact le_trans (by norm_num) hm)
      have hmse : (Client.speedEnvelopePhase keys (Client.brakeTurnPhase keys
          { s with timeLeft := s.timeLeft - 1/60 })).maxSpeed = s.maxSpeed := by
        rw [hse.2.2, hb.2]
      generalize hg : Client.speedEnvelopePhase keys (Client.brakeTurnPhase keys
        { s with timeLeft := s.timeLeft - 1/60 }) = u at ht hse hmse
      split at ht
      · obtain rfl := Option.some.inj ht
        exact ⟨hse.1, hse.2.1, hmse⟩
      · have hc := chargePhase_speed u
        generalize hT4 : (if (Client.chargePhase u).stunned > 0
            then { Client.chargePhase u with
                     stunned := (Client.chargePhase u).stunned - 1 }
            else Client.chargePhase u : Client.GameState) = t4 at ht
        have ht4 : t4.currentSpeed = u.currentSpeed ∧ t4.maxSpeed = u.maxSpeed := by
          rw [← hT4]
          constructor
          · split
            · exact hc.1
            · exact hc.1
          · split
            · exact hc.2
            · exact hc.2
        split at ht
        · exact Option.noConfusion ht
        · rename_i b ri hveq
          obtain rfl := Option.some.inj ht
          have hmid := mid_bounds M keys rs fuel t4 (b, ri)
            (by rw [ht4.1]; exact hse.1)
            (by rw [ht4.1, ht4.2]; exact hse.2.1)
            (by rw [ht4.2, hmse]; exact hm) hveq
          have hpz := pizzasPhase_speed M sock sid b
          have hrec := recoveryPhase_speed (Client.pizzasPhase M sock sid b)
            (by rw [hpz.1]; exact hmid.1)
            (by rw [hpz.1, hpz.2]; exact hmid.2.1)
            (by rw [hpz.2, hmid.2.2, ht4.2, hmse]; exact hm)
          have htail := tailSpinPhase_speed
            (Client.recoveryPhase (Client.pizzasPhase M sock sid b))
          have hmsfin : (Client.tailSpinPhase (Client.recoveryPhase
              (Client.pizzasPhase M sock sid b))).maxSpeed = s.maxSpeed := by
            rw [htail.2, hrec.2.2, hpz.2, hmid.2.2, ht4.2, hmse]
          rcases htail.1 with h4 | h4
          · refine ⟨?_, ?_, hmsfin⟩
            · rw [h4]; exact hrec.1
            · rw [h4, htail.2]; exact hrec.2.1
          · refine ⟨?_, ?_, hmsfin⟩
            · rw [h4]
            · rw [h4, hmsfin]; linarith
  · show Client.SPEED_MIN ≤ min Client.SPEED_MAX (s.maxSpeed + Client.SPEED_STEP)
    refine le_min (by norm_num [Client.SPEED_MIN, Client.SPEED_MAX]) ?_
    simp only [Client.SPEED_MIN, Client.SPEED_STEP]
    linarith
  · exact min_le_left _ _
  · exact le_max_left _ _
  · show max Client.SPEED_MIN (s.maxSpeed - Client.SPEED_STEP) ≤ Client.SPEED_MAX
    refine max_le (by norm_num [Client.SPEED_MIN, Client.SPEED_MAX]) ?_
    simp only [Client.SPEED_STEP, Client.SPEED_MAX] at hcap ⊢
    linarith

/-- C2 (witness): the bounds theorem applied to the quiescent state with the
clock run out, whose tick is the concrete time-out return. -/
theorem clientTick_speed_bounds_witness :
    (0 ≤ c2WitState.currentSpeed ∧ c2WitState.currentSpeed ≤ c2WitState.maxSpeed ∧
      c2WitState.maxSpeed = c2WitStart.maxSpeed) ∧
    (Client.SPEED_MIN ≤ (Client.handleShiftDown c2WitStart).maxSpeed ∧
      (Client.handleShiftDown c2WitStart).maxSpeed ≤ Client.SPEED_MAX) ∧
    (c2WitStart.maxSpeed ≤ Client.SPEED_MAX →
      Client.SPEED_MIN ≤ (Client.handleControlDown c2WitStart).maxSpeed ∧
      (Client.handleControlDown c2WitStart).maxSpeed ≤ Client.SPEED_MAX) := by
  apply clientTick_speed_bounds ratMath noKeys false "p" zeroRand 0 c2WitStart c2WitState
  · rw [show c2WitStart.currentSpeed = 7/10 from rfl]
    norm_num
  · rw [show c2WitStart.currentSpeed = 7/10 from rfl,
        show c2WitStart.maxSpeed = 7/10 from rfl]
  · rw [show c2WitStart.maxSpeed = 7/10 from rfl]
  · unfold Client.clientTick
    dsimp only
    have hE : Client.endCheck1
        { c2WitStart with timeLeft := c2WitStart.timeLeft - 1/60 } = true := by
      unfold Client.endCheck1
      dsimp only
      simp only [Bool.or_eq_true, Bool.and_eq_true, decide_eq_true_eq]
      refine Or.inl ?_
      rw [show c2WitStart.timeLeft = 0 from rfl]
      norm_num
    rw [hE, if_pos rfl]
    rfl

end PizzaGame
